import Mathlib

/-
  Verification of the GridCal compilation core (circuit_to_data.py,
  simple_dispatch.py, numba_functions.py) against its specification.

  The Python sources are shallowly embedded: numpy float64/complex128
  arrays become lists of rationals / rational-component complex numbers,
  in-place element assignment becomes List.set, and the per-device loops
  become structural recursions threading the enumeration index.
-/

/-- Complex numbers with rational components, standing in for numpy
complex128 values (exact arithmetic in place of floating point). -/
structure Cpx where
  re : ℚ
  im : ℚ
deriving DecidableEq, Repr

namespace Cpx

def add (x y : Cpx) : Cpx := ⟨x.re + y.re, x.im + y.im⟩

def mul (x y : Cpx) : Cpx := ⟨x.re * y.re - x.im * y.im, x.re * y.im + x.im * y.re⟩

def sub (x y : Cpx) : Cpx := ⟨x.re - y.re, x.im - y.im⟩

/-- Complex conjugate, as used by np.conj. -/
def conj (x : Cpx) : Cpx := ⟨x.re, -x.im⟩

instance : Add Cpx := ⟨add⟩

instance : Mul Cpx := ⟨mul⟩

instance : Sub Cpx := ⟨sub⟩

instance : Zero Cpx := ⟨⟨0, 0⟩⟩

theorem add_def (x y : Cpx) : x + y = ⟨x.re + y.re, x.im + y.im⟩ := rfl

theorem zero_def : (0 : Cpx) = ⟨0, 0⟩ := rfl

instance : AddCommMonoid Cpx where
  add_assoc a b c := by
    cases a; cases b; cases c
    simp [add_def, add_assoc]
  zero_add a := by cases a; simp [add_def, zero_def]
  add_zero a := by cases a; simp [add_def, zero_def]
  add_comm a b := by
    cases a; cases b
    simp [add_def]
    constructor <;> ring
  nsmul := nsmulRec

/-- Display form used when a complex seed value is printed into a log line. -/
def str (x : Cpx) : String :=
  "(" ++ toString x.re ++ "+" ++ toString x.im ++ "j)"

end Cpx

/-
  SparsePowerInjectionKernel
  (src/GridCal/Engine/Simulations/PowerFlow/numba_functions.py)
-/

/-- Inner loop of calc_power_csr_numba for one row i: the accumulator s
starts at complex(0, 0) and the nonzeros of row i are added in storage
order, p running from Yp[i] to Yp[i+1] - 1. -/
def csrRowSum (Yp Yj : List Nat) (Yx V : List Cpx) (i : Nat) : Cpx :=
  (List.range' (Yp.getD i 0) (Yp.getD (i + 1) 0 - Yp.getD i 0)).foldl
    (fun s p => s + Yx.getD p 0 * V.getD (Yj.getD p 0) 0) 0

/-- Embedding of calc_power_csr_numba.  The serial branch (n below n_par)
and the numba prange branch execute the identical row computation, the
parallel loop being row-independent, so both arms embed to the same pure
per-row map. -/
def calc_power_csr_numba (n : Nat) (Yp Yj : List Nat) (Yx V I0 : List Cpx)
    (n_par : Nat) : List Cpx :=
  if n < n_par then
    (List.range n).map
      (fun i => V.getD i 0 * Cpx.conj (csrRowSum Yp Yj Yx V i - I0.getD i 0))
  else
    (List.range n).map
      (fun i => V.getD i 0 * Cpx.conj (csrRowSum Yp Yj Yx V i - I0.getD i 0))

theorem calc_power_csr_numba_getD (n : Nat) (Yp Yj : List Nat)
    (Yx V I0 : List Cpx) (n_par i : Nat) (hi : i < n) :
    (calc_power_csr_numba n Yp Yj Yx V I0 n_par).getD i 0
      = V.getD i 0 * Cpx.conj (csrRowSum Yp Yj Yx V i - I0.getD i 0) := by
  unfold calc_power_csr_numba
  have h :
      ((List.range n).map
        (fun i => V.getD i 0 * Cpx.conj (csrRowSum Yp Yj Yx V i - I0.getD i 0))).getD i 0
      = V.getD i 0 * Cpx.conj (csrRowSum Yp Yj Yx V i - I0.getD i 0) := by
    rw [List.getD_eq_getElem?_getD, List.getElem?_map, List.getElem?_range hi]
    rfl
  split <;> exact h

/-- Left fold of additions equals the initial value plus the list sum. -/
theorem foldl_add_eq_sum {α : Type} [AddCommMonoid α] (g : Nat → α)
    (l : List Nat) (c : α) :
    l.foldl (fun s p => s + g p) c = c + (l.map g).sum := by
  induction l generalizing c with
  | nil => simp
  | cons x xs ih => simp [ih, add_assoc]

/-- Sum of a function mapped over List.range' a m equals the finite sum
over the integer interval [a, a + m). -/
theorem sum_map_range' {α : Type} [AddCommMonoid α] (g : Nat → α)
    (a m : Nat) :
    ((List.range' a m).map g).sum = ∑ p ∈ Finset.Ico a (a + m), g p := by
  induction m generalizing a with
  | zero => simp
  | succ k ih =>
    rw [List.range'_succ]
    have hrange : Finset.Ico a (a + (k + 1)) = insert a (Finset.Ico (a + 1) (a + 1 + k)) := by
      rw [show a + 1 + k = a + (k + 1) by omega]
      exact (Nat.Ico_insert_succ_left (by omega)).symm
    rw [hrange, Finset.sum_insert (by simp)]
    simp [ih]

/-- The ordered row accumulation equals the mathematical sum of the row
nonzeros times the corresponding voltage entries. -/
theorem csrRowSum_eq_sum (Yp Yj : List Nat) (Yx V : List Cpx) (i : Nat)
    (hmono : Yp.getD i 0 ≤ Yp.getD (i + 1) 0) :
    csrRowSum Yp Yj Yx V i
      = ∑ p ∈ Finset.Ico (Yp.getD i 0) (Yp.getD (i + 1) 0),
          Yx.getD p 0 * V.getD (Yj.getD p 0) 0 := by
  unfold csrRowSum
  rw [foldl_add_eq_sum, sum_map_range', zero_add,
      show Yp.getD i 0 + (Yp.getD (i + 1) 0 - Yp.getD i 0) = Yp.getD (i + 1) 0 by omega]

/-- C4: for a CSR matrix with row pointers Yp (length n + 1), column
indices Yj all below n and values Yx, and length-n complex vectors V and
I0, calc_power_csr_numba returns S with
S[i] = V[i] * conj((sum over p in [Yp[i], Yp[i+1]) of Yx[p] * V[Yj[p]]) - I0[i])
for every row i, the row sum being accumulated in nonzero storage order. -/
theorem C4_calc_power_csr_rowwise (n : Nat) (Yp Yj : List Nat)
    (Yx V I0 : List Cpx) (n_par : Nat)
    (hYp : Yp.length = n + 1) (hV : V.length = n) (hI : I0.length = n)
    (hYj : ∀ j ∈ Yj, j < n)
    (hmono : ∀ i, i < n → Yp.getD i 0 ≤ Yp.getD (i + 1) 0)
    (i : Nat) (hi : i < n) :
    (calc_power_csr_numba n Yp Yj Yx V I0 n_par).getD i 0
      = V.getD i 0 *
        Cpx.conj
          ((∑ p ∈ Finset.Ico (Yp.getD i 0) (Yp.getD (i + 1) 0),
              Yx.getD p 0 * V.getD (Yj.getD p 0) 0) - I0.getD i 0) := by
  rw [calc_power_csr_numba_getD n Yp Yj Yx V I0 n_par i hi,
      csrRowSum_eq_sum Yp Yj Yx V i (hmono i hi)]

/-- Witness for C4 at the specification example Y = diag(2, 3),
V = [1, 1], I = [0, 0]: row 0 of the returned power vector is 2 + 0j. -/
theorem C4_calc_power_csr_rowwise_witness :
    (calc_power_csr_numba 2 [0, 1, 2] [0, 1]
        [⟨2, 0⟩, ⟨3, 0⟩] [⟨1, 0⟩, ⟨1, 0⟩] [0, 0] 500).getD 0 0
      = (⟨1, 0⟩ : Cpx) *
        Cpx.conj
          ((∑ p ∈ Finset.Ico (([0, 1, 2] : List Nat).getD 0 0)
                (([0, 1, 2] : List Nat).getD 1 0),
              ([⟨2, 0⟩, ⟨3, 0⟩] : List Cpx).getD p 0 *
                ([⟨1, 0⟩, ⟨1, 0⟩] : List Cpx).getD
                  (([0, 1] : List Nat).getD p 0) 0) -
            ([0, 0] : List Cpx).getD 0 0) :=
  C4_calc_power_csr_rowwise 2 [0, 1, 2] [0, 1]
    [⟨2, 0⟩, ⟨3, 0⟩] [⟨1, 0⟩, ⟨1, 0⟩] [0, 0] 500
    (by decide) (by decide) (by decide) (by decide)
    (by decide) 0 (by decide)

/-
  Device array builders
  (src/GridCal/Engine/Core/DataStructures/circuit_to_data.py)

  Bus references are embedded already resolved through bus_dict: a device
  stores the dense bus index that bus_dict[elm.bus] yields in the source
  (an unmapped bus reference is a fatal KeyError there, outside the scope
  of the claims below).
-/

/-- Branch impedance tolerance band enumeration {Nominal, Lower, Upper}
consumed from GridCal.Engine.basic_structures (the enum itself is outside
the compiled sources; only the Lower and Upper constructors are tested,
every other value taking the unscaled path). -/
inductive BranchImpedanceMode
  | Nominal
  | Lower
  | Upper
deriving DecidableEq, Inhabited, Repr

/-- AC line device as read by get_line_data and get_branch_data.
R_corrected is the externally supplied temperature-corrected resistance. -/
structure Line where
  name : String
  bus_from : Nat
  bus_to : Nat
  R : ℚ
  R_corrected : ℚ
  X : ℚ
  B : ℚ
  tolerance : ℚ
  active : Bool
  rate : ℚ
  Cost : ℚ
deriving DecidableEq, Inhabited, Repr

/-- DC line device as read by get_dc_line_data and get_branch_data. -/
structure DcLine where
  name : String
  bus_from : Nat
  bus_to : Nat
  R : ℚ
  R_corrected : ℚ
  tolerance : ℚ
  temp_base : ℚ
  temp_oper : ℚ
  alpha : ℚ
  active : Bool
  rate : ℚ
  Cost : ℚ
deriving DecidableEq, Inhabited, Repr

/-- Series resistance after the temperature choice and the single
tolerance-band scaling, exactly as the two if-chains of the source write
it: first R or R_corrected, then in Lower mode times (1 - tol/100), in
Upper mode times (1 + tol/100), otherwise untouched. -/
def correctedR (R R_corrected tolerance : ℚ) (apply_temperature : Bool)
    (mode : BranchImpedanceMode) : ℚ :=
  let r0 := if apply_temperature then R_corrected else R
  match mode with
  | BranchImpedanceMode.Lower => r0 * (1 - tolerance / 100)
  | BranchImpedanceMode.Upper => r0 * (1 + tolerance / 100)
  | BranchImpedanceMode.Nominal => r0

/-- LinesData container populated by get_line_data (the line-bus
incidence matrix is omitted: no claim concerns it). -/
structure LinesData where
  line_names : List String
  line_R : List ℚ
  line_X : List ℚ
  line_B : List ℚ
deriving DecidableEq, Repr

/-- Embedding of get_line_data.  The source loop writes each field at
index i of a preallocated array for the i-th line, which is a per-field
map over the line list. -/
def get_line_data (lines : List Line) (apply_temperature : Bool)
    (branch_tolerance_mode : BranchImpedanceMode) : LinesData :=
  { line_names := lines.map (fun elm => elm.name)
  , line_R := lines.map (fun elm =>
      correctedR elm.R elm.R_corrected elm.tolerance apply_temperature
        branch_tolerance_mode)
  , line_X := lines.map (fun elm => elm.X)
  , line_B := lines.map (fun elm => elm.B) }

/-- DcLinesData container populated by get_dc_line_data (incidence
matrix omitted as above). -/
structure DcLinesData where
  dc_line_names : List String
  dc_line_R : List ℚ
  dc_line_impedance_tolerance : List ℚ
  dc_F : List Nat
  dc_T : List Nat
  dc_line_temp_base : List ℚ
  dc_line_temp_oper : List ℚ
  dc_line_alpha : List ℚ
deriving DecidableEq, Repr

/-- Embedding of get_dc_line_data, with the identical resistance
correction chain as get_line_data. -/
def get_dc_line_data (dc_lines : List DcLine) (apply_temperature : Bool)
    (branch_tolerance_mode : BranchImpedanceMode) : DcLinesData :=
  { dc_line_names := dc_lines.map (fun elm => elm.name)
  , dc_line_R := dc_lines.map (fun elm =>
      correctedR elm.R elm.R_corrected elm.tolerance apply_temperature
        branch_tolerance_mode)
  , dc_line_impedance_tolerance := dc_lines.map (fun elm => elm.tolerance)
  , dc_F := dc_lines.map (fun elm => elm.bus_from)
  , dc_T := dc_lines.map (fun elm => elm.bus_to)
  , dc_line_temp_base := dc_lines.map (fun elm => elm.temp_base)
  , dc_line_temp_oper := dc_lines.map (fun elm => elm.temp_oper)
  , dc_line_alpha := dc_lines.map (fun elm => elm.alpha) }

/-- Mapped list indexing: reading position i of a mapped list below its
length applies the function to the source entry. -/
theorem getD_map_lt {α β : Type} [Inhabited α] (f : α → β) (xs : List α)
    (i : Nat) (d : β) (hi : i < xs.length) :
    (xs.map f).getD i d = f (xs.getD i default) := by
  rw [List.getD_eq_getElem?_getD, List.getElem?_map,
      List.getElem?_eq_getElem hi, List.getD_eq_getElem?_getD,
      List.getElem?_eq_getElem hi]
  rfl

/-- Tolerance factor named by the claim: 1 - tol/100 in Lower mode,
1 + tol/100 in Upper mode, 1 in Nominal mode. -/
def toleranceFactor (tolerance : ℚ) : BranchImpedanceMode → ℚ
  | BranchImpedanceMode.Lower => 1 - tolerance / 100
  | BranchImpedanceMode.Upper => 1 + tolerance / 100
  | BranchImpedanceMode.Nominal => 1

/-- The written resistance is the temperature-choice base times the
tolerance factor of the mode: one multiplication, after the temperature
choice. -/
theorem correctedR_eq_base_mul_factor (R R_corrected tolerance : ℚ)
    (apply_temperature : Bool) (mode : BranchImpedanceMode) :
    correctedR R R_corrected tolerance apply_temperature mode
      = (if apply_temperature then R_corrected else R) *
          toleranceFactor tolerance mode := by
  cases mode <;> simp [correctedR, toleranceFactor]

/-- C5: for every line and DC-line position, the stored resistance is the
base resistance (temperature-corrected when the flag is set, nominal
otherwise) times (1 - tol/100) in Lower mode, times (1 + tol/100) in
Upper mode, and unchanged (times 1) in Nominal mode, the tolerance
scaling being applied exactly once after the temperature choice. -/
theorem C5_resistance_tolerance_scaling (lines : List Line)
    (dc_lines : List DcLine) (apply_temperature : Bool)
    (mode : BranchImpedanceMode) (i j : Nat)
    (hi : i < lines.length) (hj : j < dc_lines.length) :
    (get_line_data lines apply_temperature mode).line_R.getD i 0
      = (if apply_temperature then (lines.getD i default).R_corrected
         else (lines.getD i default).R) *
        toleranceFactor (lines.getD i default).tolerance mode
    ∧ (get_dc_line_data dc_lines apply_temperature mode).dc_line_R.getD j 0
      = (if apply_temperature then (dc_lines.getD j default).R_corrected
         else (dc_lines.getD j default).R) *
        toleranceFactor (dc_lines.getD j default).tolerance mode := by
  constructor
  · rw [get_line_data]
    rw [getD_map_lt _ lines i 0 hi, correctedR_eq_base_mul_factor]
  · rw [get_dc_line_data]
    rw [getD_map_lt _ dc_lines j 0 hj, correctedR_eq_base_mul_factor]

/-- Sample line with R = 0.1 and tolerance = 10 for the C5 witness. -/
def lineR10 : Line :=
  { name := "L", bus_from := 0, bus_to := 1, R := 1/10, R_corrected := 1/10
  , X := 1, B := 0, tolerance := 10, active := true, rate := 10, Cost := 0 }

/-- Sample DC line with R = 0.1 and tolerance = 10 for the C5 witness. -/
def dcLineR10 : DcLine :=
  { name := "D", bus_from := 0, bus_to := 1, R := 1/10, R_corrected := 1/10
  , tolerance := 10, temp_base := 20, temp_oper := 20, alpha := 1/250
  , active := true, rate := 10, Cost := 0 }

/-- Witness for C5 at the specification example R = 0.1, tol = 10:
Lower mode gives 0.09, Upper 0.11, Nominal 0.1 (for the line and the
DC-line alike). -/
theorem C5_resistance_tolerance_scaling_witness :
    ((get_line_data [lineR10] false BranchImpedanceMode.Lower).line_R.getD 0 0 = 9/100
      ∧ (get_dc_line_data [dcLineR10] false BranchImpedanceMode.Lower).dc_line_R.getD 0 0 = 9/100)
    ∧ ((get_line_data [lineR10] false BranchImpedanceMode.Upper).line_R.getD 0 0 = 11/100
      ∧ (get_dc_line_data [dcLineR10] false BranchImpedanceMode.Upper).dc_line_R.getD 0 0 = 11/100)
    ∧ ((get_line_data [lineR10] false BranchImpedanceMode.Nominal).line_R.getD 0 0 = 1/10
      ∧ (get_dc_line_data [dcLineR10] false BranchImpedanceMode.Nominal).dc_line_R.getD 0 0 = 1/10) := by
  have hl := C5_resistance_tolerance_scaling [lineR10] [dcLineR10] false
    BranchImpedanceMode.Lower 0 0 (by decide) (by decide)
  have hu := C5_resistance_tolerance_scaling [lineR10] [dcLineR10] false
    BranchImpedanceMode.Upper 0 0 (by decide) (by decide)
  have hn := C5_resistance_tolerance_scaling [lineR10] [dcLineR10] false
    BranchImpedanceMode.Nominal 0 0 (by decide) (by decide)
  refine ⟨⟨hl.1.trans (by norm_num [lineR10, toleranceFactor]),
           hl.2.trans (by norm_num [dcLineR10, toleranceFactor])⟩,
          ⟨hu.1.trans (by norm_num [lineR10, toleranceFactor]),
           hu.2.trans (by norm_num [dcLineR10, toleranceFactor])⟩,
          ⟨hn.1.trans (by norm_num [lineR10, toleranceFactor]),
           hn.2.trans (by norm_num [dcLineR10, toleranceFactor])⟩⟩

/-
  Unified branch assembly (get_branch_data).

  Array cells are written in place in the source; the embedding threads a
  BranchData record through each device loop and writes with List.set.
-/

/-- Transformer control mode enumeration consumed from the external
device enumerations module; the assembler matches on v_to and power_v_to
and leaves the seed untouched for every other value. -/
inductive TransformerControlType
  | fixed
  | v_to
  | power_v_to
deriving DecidableEq, Inhabited, Repr

/-- Converter control mode enumeration consumed from the external device
enumerations module; the assembler matches on type_1_vac and type_2_vdc. -/
inductive ConverterControlType
  | type_0_free
  | type_1_vac
  | type_2_vdc
deriving DecidableEq, Inhabited, Repr

/-- Two-winding transformer device; tap_f and tap_t are the precomputed
virtual tap pair returned by get_virtual_taps, stored verbatim. -/
structure Transformer2w where
  name : String
  bus_from : Nat
  bus_to : Nat
  R : ℚ
  X : ℚ
  G : ℚ
  B : ℚ
  tap_module : ℚ
  angle : ℚ
  control_mode : TransformerControlType
  vset : ℚ
  tap_f : ℚ
  tap_t : ℚ
  active : Bool
  rate : ℚ
  Cost : ℚ
deriving DecidableEq, Inhabited, Repr

/-- AC/DC voltage source converter device. -/
structure VscDev where
  name : String
  bus_from : Nat
  bus_to : Nat
  R1 : ℚ
  X1 : ℚ
  G0 : ℚ
  Beq : ℚ
  m : ℚ
  theta : ℚ
  Pset : ℚ
  Qset : ℚ
  kdp : ℚ
  Vac_set : ℚ
  Vdc_set : ℚ
  control_mode : ConverterControlType
  active : Bool
  rate : ℚ
  Cost : ℚ
deriving DecidableEq, Inhabited, Repr

/-- Bus record; only the name is read by the builders below (the type
and seed live in the shared per-bus buffers). -/
structure BusDev where
  name : String
deriving DecidableEq, Inhabited, Repr

/-- Generator device as read by get_generator_data.  Profile fields of
the source carry one value per time step; they are abstracted here to a
single representative value, the conflict and dispatch logic under
verification reading only the scalar fields. -/
structure GeneratorDev where
  name : String
  bus : Nat
  P : ℚ
  Pf : ℚ
  Vset : ℚ
  Qmin : ℚ
  Qmax : ℚ
  Snom : ℚ
  Pmax : ℚ
  Pmin : ℚ
  Cost : ℚ
  active : Bool
  is_controlled : Bool
  enabled_dispatch : Bool
deriving DecidableEq, Inhabited, Repr

/-- Battery device as read by get_battery_data. -/
structure BatteryDev where
  name : String
  bus : Nat
  P : ℚ
  Pf : ℚ
  Vset : ℚ
  Qmin : ℚ
  Qmax : ℚ
  Snom : ℚ
  Enom : ℚ
  Pmax : ℚ
  Pmin : ℚ
  max_soc : ℚ
  min_soc : ℚ
  soc_0 : ℚ
  discharge_efficiency : ℚ
  charge_efficiency : ℚ
  Cost : ℚ
  active : Bool
  is_controlled : Bool
  enabled_dispatch : Bool
deriving DecidableEq, Inhabited, Repr

/-- HVDC link device as read by get_hvdc_data. -/
structure HvdcDev where
  name : String
  bus_from : Nat
  bus_to : Nat
  rate : ℚ
  Pf : ℚ
  Pt : ℚ
  Vset_f : ℚ
  Vset_t : ℚ
  loss_factor : ℚ
  Qmin_f : ℚ
  Qmax_f : ℚ
  Qmin_t : ℚ
  Qmax_t : ℚ
  active : Bool
deriving DecidableEq, Inhabited, Repr

/-- Topological circuit handed to the builders, with one ordered list
per device class. -/
structure MultiCircuit where
  buses : List BusDev
  lines : List Line
  transformers2w : List Transformer2w
  vsc_converters : List VscDev
  dc_lines : List DcLine
  generators : List GeneratorDev
  batteries : List BatteryDev
  hvdc_lines : List HvdcDev
deriving DecidableEq, Inhabited, Repr

/-- Sequential in-place writes arr[i] = vs[0], arr[i+1] = vs[1], ... as
performed by an enumerated device loop filling one array field. -/
def writeSeq {α : Type} (i : Nat) (vs : List α) (arr : List α) : List α :=
  match vs with
  | [] => arr
  | v :: rest => writeSeq (i + 1) rest (arr.set i v)

/-- Unified branch container of get_branch_data; nbr entries per branch
field plus the shared voltage-seed magnitudes (per-bus).  Incidence
matrices and cost/opf profile fields are omitted: no claim reads them. -/
structure BranchData where
  branch_names : List String
  branch_active : List Bool
  branch_rates : List ℚ
  F : List Nat
  T : List Nat
  R : List ℚ
  X : List ℚ
  G : List ℚ
  B : List ℚ
  m : List ℚ
  k : List ℚ
  theta : List ℚ
  G0 : List ℚ
  Beq : List ℚ
  Pset : List ℚ
  Qset : List ℚ
  Kdp : List ℚ
  vf_set : List ℚ
  vt_set : List ℚ
  tap_f : List ℚ
  tap_t : List ℚ
  Vbus : List ℚ
deriving DecidableEq, Repr

/-- Freshly allocated BranchData: numeric arrays zeroed as by np.zeros,
names empty, active flags cleared, voltage seeds at the flat-start
magnitude 1. -/
def BranchData.blank (nbr nbus : Nat) : BranchData where
  branch_names := List.replicate nbr ""
  branch_active := List.replicate nbr false
  branch_rates := List.replicate nbr 0
  F := List.replicate nbr 0
  T := List.replicate nbr 0
  R := List.replicate nbr 0
  X := List.replicate nbr 0
  G := List.replicate nbr 0
  B := List.replicate nbr 0
  m := List.replicate nbr 0
  k := List.replicate nbr 0
  theta := List.replicate nbr 0
  G0 := List.replicate nbr 0
  Beq := List.replicate nbr 0
  Pset := List.replicate nbr 0
  Qset := List.replicate nbr 0
  Kdp := List.replicate nbr 0
  vf_set := List.replicate nbr 0
  vt_set := List.replicate nbr 0
  tap_f := List.replicate nbr 0
  tap_t := List.replicate nbr 0
  Vbus := List.replicate nbus 1

/-- AC line pass of get_branch_data: the i-th line writes its fields at
unified position i, with the same resistance correction chain as
get_line_data. -/
def branchLinesAux (apply_temperature : Bool) (mode : BranchImpedanceMode)
    (i : Nat) (xs : List Line) (d : BranchData) : BranchData :=
  match xs with
  | [] => d
  | elm :: rest =>
      branchLinesAux apply_temperature mode (i + 1) rest
        { d with
          branch_names := d.branch_names.set i elm.name
          branch_active := d.branch_active.set i elm.active
          branch_rates := d.branch_rates.set i elm.rate
          F := d.F.set i elm.bus_from
          T := d.T.set i elm.bus_to
          R := d.R.set i
            (correctedR elm.R elm.R_corrected elm.tolerance apply_temperature mode)
          X := d.X.set i elm.X
          B := d.B.set i elm.B }

/-- Control-mode voltage seeding of the transformer pass: a v_to or
power_v_to control mode overwrites the to-bus seed magnitude with the
transformer setpoint; every other mode leaves the seeds untouched. -/
def applyTrControl (elm : Transformer2w) (d : BranchData) : BranchData :=
  match elm.control_mode with
  | TransformerControlType.v_to =>
      { d with Vbus := d.Vbus.set elm.bus_to elm.vset }
  | TransformerControlType.power_v_to =>
      { d with Vbus := d.Vbus.set elm.bus_to elm.vset }
  | _ => d

/-- Control-mode voltage seeding of the converter pass: type_1_vac seeds
the to-bus with Vac_set, type_2_vdc seeds the from-bus with Vdc_set. -/
def applyVscControl (elm : VscDev) (d : BranchData) : BranchData :=
  match elm.control_mode with
  | ConverterControlType.type_1_vac =>
      { d with Vbus := d.Vbus.set elm.bus_to elm.Vac_set }
  | ConverterControlType.type_2_vdc =>
      { d with Vbus := d.Vbus.set elm.bus_from elm.Vdc_set }
  | _ => d

/-- Two-winding transformer pass of get_branch_data: the i-th
transformer writes at ii = i + nline, and a v_to or power_v_to control
mode overwrites the to-bus voltage-seed magnitude with the setpoint. -/
def branchTrAux (nline i : Nat) (xs : List Transformer2w) (d : BranchData) :
    BranchData :=
  match xs with
  | [] => d
  | elm :: rest =>
      let ii := i + nline
      let d1 := { d with
          branch_names := d.branch_names.set ii elm.name
          branch_active := d.branch_active.set ii elm.active
          branch_rates := d.branch_rates.set ii elm.rate
          F := d.F.set ii elm.bus_from
          T := d.T.set ii elm.bus_to
          R := d.R.set ii elm.R
          X := d.X.set ii elm.X
          G := d.G.set ii elm.G
          B := d.B.set ii elm.B
          m := d.m.set ii elm.tap_module
          theta := d.theta.set ii elm.angle
          tap_f := d.tap_f.set ii elm.tap_f
          tap_t := d.tap_t.set ii elm.tap_t }
      branchTrAux nline (i + 1) rest (applyTrControl elm d1)

/-- Converter pass of get_branch_data: the i-th converter writes at
ii = i + nline + ntr; type_1_vac seeds the to-bus with Vac_set and
type_2_vdc seeds the from-bus with Vdc_set. -/
def branchVscAux (base i : Nat) (xs : List VscDev) (d : BranchData) :
    BranchData :=
  match xs with
  | [] => d
  | elm :: rest =>
      let ii := i + base
      let d1 := { d with
          branch_names := d.branch_names.set ii elm.name
          branch_active := d.branch_active.set ii elm.active
          branch_rates := d.branch_rates.set ii elm.rate
          F := d.F.set ii elm.bus_from
          T := d.T.set ii elm.bus_to
          R := d.R.set ii elm.R1
          X := d.X.set ii elm.X1
          G0 := d.G0.set ii elm.G0
          Beq := d.Beq.set ii elm.Beq
          m := d.m.set ii elm.m
          k := d.k.set ii 1
          theta := d.theta.set ii elm.theta
          Pset := d.Pset.set ii elm.Pset
          Qset := d.Qset.set ii elm.Qset
          Kdp := d.Kdp.set ii elm.kdp
          vf_set := d.vf_set.set ii elm.Vac_set
          vt_set := d.vt_set.set ii elm.Vdc_set }
      branchVscAux base (i + 1) rest (applyVscControl elm d1)

/-- DC line pass of get_branch_data.  The i-th DC line writes its name,
flags and endpoints at ii = i + nline + ntr + nvsc, but the source
assigns the corrected resistance to data.R[i] with the unshifted index i
(circuit_to_data.py lines 643-651), and that slip is reproduced here. -/
def branchDcAux (apply_temperature : Bool) (mode : BranchImpedanceMode)
    (base i : Nat) (xs : List DcLine) (d : BranchData) : BranchData :=
  match xs with
  | [] => d
  | elm :: rest =>
      let ii := i + base
      branchDcAux apply_temperature mode base (i + 1) rest
        { d with
          branch_names := d.branch_names.set ii elm.name
          branch_active := d.branch_active.set ii elm.active
          branch_rates := d.branch_rates.set ii elm.rate
          F := d.F.set ii elm.bus_from
          T := d.T.set ii elm.bus_to
          R := d.R.set i
            (correctedR elm.R elm.R_corrected elm.tolerance apply_temperature mode) }

/-- Embedding of get_branch_data: a blank container of size
nline + ntr + nvsc + ndcline filled by the line, transformer, converter
and DC-line passes in that fixed order. -/
def get_branch_data (circuit : MultiCircuit) (apply_temperature : Bool)
    (branch_tolerance_mode : BranchImpedanceMode) : BranchData :=
  let nline := circuit.lines.length
  let ntr := circuit.transformers2w.length
  let nvsc := circuit.vsc_converters.length
  let ndcline := circuit.dc_lines.length
  let nbr := nline + ntr + nvsc + ndcline
  let d0 := BranchData.blank nbr circuit.buses.length
  let d1 := branchLinesAux apply_temperature branch_tolerance_mode 0 circuit.lines d0
  let d2 := branchTrAux nline 0 circuit.transformers2w d1
  let d3 := branchVscAux (nline + ntr) 0 circuit.vsc_converters d2
  branchDcAux apply_temperature branch_tolerance_mode (nline + ntr + nvsc) 0
    circuit.dc_lines d3

/-- Writing at one position leaves every other position unchanged. -/
theorem getD_set_ne {α : Type} (arr : List α) (i j : Nat) (v : α) (d : α)
    (h : i ≠ j) : (arr.set i v).getD j d = arr.getD j d := by
  rw [List.getD_eq_getElem?_getD, List.getElem?_set, if_neg h,
      ← List.getD_eq_getElem?_getD]

/-- Writing at an in-range position stores the value there. -/
theorem getD_set_self {α : Type} (arr : List α) (i : Nat) (v : α) (d : α)
    (h : i < arr.length) : (arr.set i v).getD i d = v := by
  rw [List.getD_eq_getElem?_getD, List.getElem?_set, if_pos rfl, if_pos h]
  rfl

theorem writeSeq_length {α : Type} (vs : List α) (i : Nat) (arr : List α) :
    (writeSeq i vs arr).length = arr.length := by
  induction vs generalizing i arr with
  | nil => rfl
  | cons v rest ih => rw [writeSeq, ih, List.length_set]

/-- Positions before the write window or at/after its end are untouched. -/
theorem writeSeq_getD_out {α : Type} (vs : List α) (i j : Nat)
    (arr : List α) (d : α) (h : j < i ∨ i + vs.length ≤ j) :
    (writeSeq i vs arr).getD j d = arr.getD j d := by
  induction vs generalizing i arr with
  | nil => rfl
  | cons v rest ih =>
    rw [writeSeq,
        ih (i + 1) (arr.set i v) (by simp only [List.length_cons] at h; omega),
        getD_set_ne arr i j v d (by simp only [List.length_cons] at h; omega)]

/-- Position i + k of the write window holds the k-th written value. -/
theorem writeSeq_getD_at {α : Type} (vs : List α) (i k : Nat)
    (arr : List α) (d : α) (hk : k < vs.length) (hik : i + k < arr.length) :
    (writeSeq i vs arr).getD (i + k) d = vs.getD k d := by
  induction vs generalizing i k arr with
  | nil => simp at hk
  | cons v rest ih =>
    rw [writeSeq]
    cases k with
    | zero =>
      rw [writeSeq_getD_out rest (i + 1) (i + 0) (arr.set i v) d
            (Or.inl (by omega))]
      simpa using getD_set_self arr i v d (by omega)
    | succ k0 =>
      rw [show i + (k0 + 1) = (i + 1) + k0 by omega]
      rw [ih (i + 1) k0 (arr.set i v)
            (by simp only [List.length_cons] at hk; omega)
            (by simp only [List.length_set]; omega)]
      simp

/-- Reading a four-segment stack of sequential write windows over a blank
array: each segment returns its own values at its own offsets, and the
stack preserves the array length. -/
theorem writeSeq4_getD {α : Type} (a b c e arr : List α) (d : α)
    (harr : arr.length = a.length + b.length + c.length + e.length) :
    (writeSeq (a.length + b.length + c.length) e
        (writeSeq (a.length + b.length) c
          (writeSeq a.length b (writeSeq 0 a arr)))).length = arr.length
    ∧ (∀ i, i < a.length →
        (writeSeq (a.length + b.length + c.length) e
          (writeSeq (a.length + b.length) c
            (writeSeq a.length b (writeSeq 0 a arr)))).getD i d = a.getD i d)
    ∧ (∀ i, i < b.length →
        (writeSeq (a.length + b.length + c.length) e
          (writeSeq (a.length + b.length) c
            (writeSeq a.length b (writeSeq 0 a arr)))).getD (a.length + i) d
          = b.getD i d)
    ∧ (∀ i, i < c.length →
        (writeSeq (a.length + b.length + c.length) e
          (writeSeq (a.length + b.length) c
            (writeSeq a.length b (writeSeq 0 a arr)))).getD
              (a.length + b.length + i) d = c.getD i d)
    ∧ (∀ i, i < e.length →
        (writeSeq (a.length + b.length + c.length) e
          (writeSeq (a.length + b.length) c
            (writeSeq a.length b (writeSeq 0 a arr)))).getD
              (a.length + b.length + c.length + i) d = e.getD i d) := by
  have l1 : (writeSeq 0 a arr).length = arr.length := writeSeq_length a 0 arr
  have l2 : (writeSeq a.length b (writeSeq 0 a arr)).length = arr.length := by
    rw [writeSeq_length, l1]
  have l3 : (writeSeq (a.length + b.length) c
      (writeSeq a.length b (writeSeq 0 a arr))).length = arr.length := by
    rw [writeSeq_length, l2]
  have l4 : (writeSeq (a.length + b.length + c.length) e
      (writeSeq (a.length + b.length) c
        (writeSeq a.length b (writeSeq 0 a arr)))).length = arr.length := by
    rw [writeSeq_length, l3]
  refine ⟨l4, ?_, ?_, ?_, ?_⟩
  · intro i hi
    rw [writeSeq_getD_out e _ i _ d (Or.inl (by omega)),
        writeSeq_getD_out c _ i _ d (Or.inl (by omega)),
        writeSeq_getD_out b _ i _ d (Or.inl (by omega))]
    have := writeSeq_getD_at a 0 i arr d hi (by omega)
    simpa using this
  · intro i hi
    rw [writeSeq_getD_out e _ _ _ d (Or.inl (by omega)),
        writeSeq_getD_out c _ _ _ d (Or.inl (by omega))]
    exact writeSeq_getD_at b a.length i (writeSeq 0 a arr) d hi (by omega)
  · intro i hi
    rw [writeSeq_getD_out e _ _ _ d (Or.inl (by omega))]
    exact writeSeq_getD_at c (a.length + b.length) i _ d hi (by rw [l2]; omega)
  · intro i hi
    exact writeSeq_getD_at e (a.length + b.length + c.length) i _ d hi
      (by rw [l3]; omega)

theorem applyTrControl_branch_names (elm : Transformer2w) (d : BranchData) :
    (applyTrControl elm d).branch_names = d.branch_names := by
  unfold applyTrControl
  cases elm.control_mode <;> rfl

theorem applyTrControl_F (elm : Transformer2w) (d : BranchData) :
    (applyTrControl elm d).F = d.F := by
  unfold applyTrControl
  cases elm.control_mode <;> rfl

theorem applyTrControl_T (elm : Transformer2w) (d : BranchData) :
    (applyTrControl elm d).T = d.T := by
  unfold applyTrControl
  cases elm.control_mode <;> rfl

theorem applyVscControl_branch_names (elm : VscDev) (d : BranchData) :
    (applyVscControl elm d).branch_names = d.branch_names := by
  unfold applyVscControl
  cases elm.control_mode <;> rfl

theorem applyVscControl_F (elm : VscDev) (d : BranchData) :
    (applyVscControl elm d).F = d.F := by
  unfold applyVscControl
  cases elm.control_mode <;> rfl

theorem applyVscControl_T (elm : VscDev) (d : BranchData) :
    (applyVscControl elm d).T = d.T := by
  unfold applyVscControl
  cases elm.control_mode <;> rfl

theorem branchLinesAux_branch_names (apply_temperature : Bool)
    (mode : BranchImpedanceMode) (xs : List Line) (i : Nat) (d : BranchData) :
    (branchLinesAux apply_temperature mode i xs d).branch_names
      = writeSeq i (xs.map (fun e => e.name)) d.branch_names := by
  induction xs generalizing i d with
  | nil => rfl
  | cons e rest ih => rw [branchLinesAux, ih, List.map_cons, writeSeq]

theorem branchLinesAux_F (apply_temperature : Bool)
    (mode : BranchImpedanceMode) (xs : List Line) (i : Nat) (d : BranchData) :
    (branchLinesAux apply_temperature mode i xs d).F
      = writeSeq i (xs.map (fun e => e.bus_from)) d.F := by
  induction xs generalizing i d with
  | nil => rfl
  | cons e rest ih => rw [branchLinesAux, ih, List.map_cons, writeSeq]

theorem branchLinesAux_T (apply_temperature : Bool)
    (mode : BranchImpedanceMode) (xs : List Line) (i : Nat) (d : BranchData) :
    (branchLinesAux apply_temperature mode i xs d).T
      = writeSeq i (xs.map (fun e => e.bus_to)) d.T := by
  induction xs generalizing i d with
  | nil => rfl
  | cons e rest ih => rw [branchLinesAux, ih, List.map_cons, writeSeq]

theorem branchTrAux_branch_names (nline : Nat) (xs : List Transformer2w)
    (i : Nat) (d : BranchData) :
    (branchTrAux nline i xs d).branch_names
      = writeSeq (i + nline) (xs.map (fun e => e.name)) d.branch_names := by
  induction xs generalizing i d with
  | nil => rfl
  | cons e rest ih =>
    rw [branchTrAux, ih, applyTrControl_branch_names, List.map_cons, writeSeq,
        show i + 1 + nline = i + nline + 1 by omega]

theorem branchTrAux_F (nline : Nat) (xs : List Transformer2w)
    (i : Nat) (d : BranchData) :
    (branchTrAux nline i xs d).F
      = writeSeq (i + nline) (xs.map (fun e => e.bus_from)) d.F := by
  induction xs generalizing i d with
  | nil => rfl
  | cons e rest ih =>
    rw [branchTrAux, ih, applyTrControl_F, List.map_cons, writeSeq,
        show i + 1 + nline = i + nline + 1 by omega]

theorem branchTrAux_T (nline : Nat) (xs : List Transformer2w)
    (i : Nat) (d : BranchData) :
    (branchTrAux nline i xs d).T
      = writeSeq (i + nline) (xs.map (fun e => e.bus_to)) d.T := by
  induction xs generalizing i d with
  | nil => rfl
  | cons e rest ih =>
    rw [branchTrAux, ih, applyTrControl_T, List.map_cons, writeSeq,
        show i + 1 + nline = i + nline + 1 by omega]

theorem branchVscAux_branch_names (base : Nat) (xs : List VscDev)
    (i : Nat) (d : BranchData) :
    (branchVscAux base i xs d).branch_names
      = writeSeq (i + base) (xs.map (fun e => e.name)) d.branch_names := by
  induction xs generalizing i d with
  | nil => rfl
  | cons e rest ih =>
    rw [branchVscAux, ih, applyVscControl_branch_names, List.map_cons, writeSeq,
        show i + 1 + base = i + base + 1 by omega]

theorem branchVscAux_F (base : Nat) (xs : List VscDev)
    (i : Nat) (d : BranchData) :
    (branchVscAux base i xs d).F
      = writeSeq (i + base) (xs.map (fun e => e.bus_from)) d.F := by
  induction xs generalizing i d with
  | nil => rfl
  | cons e rest ih =>
    rw [branchVscAux, ih, applyVscControl_F, List.map_cons, writeSeq,
        show i + 1 + base = i + base + 1 by omega]

theorem branchVscAux_T (base : Nat) (xs : List VscDev)
    (i : Nat) (d : BranchData) :
    (branchVscAux base i xs d).T
      = writeSeq (i + base) (xs.map (fun e => e.bus_to)) d.T := by
  induction xs generalizing i d with
  | nil => rfl
  | cons e rest ih =>
    rw [branchVscAux, ih, applyVscControl_T, List.map_cons, writeSeq,
        show i + 1 + base = i + base + 1 by omega]

theorem branchDcAux_branch_names (apply_temperature : Bool)
    (mode : BranchImpedanceMode) (xs : List DcLine) (base i : Nat)
    (d : BranchData) :
    (branchDcAux apply_temperature mode base i xs d).branch_names
      = writeSeq (i + base) (xs.map (fun e => e.name)) d.branch_names := by
  induction xs generalizing i d with
  | nil => rfl
  | cons e rest ih =>
    rw [branchDcAux, ih, List.map_cons, writeSeq,
        show i + 1 + base = i + base + 1 by omega]

theorem branchDcAux_F (apply_temperature : Bool)
    (mode : BranchImpedanceMode) (xs : List DcLine) (base i : Nat)
    (d : BranchData) :
    (branchDcAux apply_temperature mode base i xs d).F
      = writeSeq (i + base) (xs.map (fun e => e.bus_from)) d.F := by
  induction xs generalizing i d with
  | nil => rfl
  | cons e rest ih =>
    rw [branchDcAux, ih, List.map_cons, writeSeq,
        show i + 1 + base = i + base + 1 by omega]

theorem branchDcAux_T (apply_temperature : Bool)
    (mode : BranchImpedanceMode) (xs : List DcLine) (base i : Nat)
    (d : BranchData) :
    (branchDcAux apply_temperature mode base i xs d).T
      = writeSeq (i + base) (xs.map (fun e => e.bus_to)) d.T := by
  induction xs generalizing i d with
  | nil => rfl
  | cons e rest ih =>
    rw [branchDcAux, ih, List.map_cons, writeSeq,
        show i + 1 + base = i + base + 1 by omega]

theorem get_branch_data_branch_names (circuit : MultiCircuit)
    (apply_temperature : Bool) (mode : BranchImpedanceMode) :
    (get_branch_data circuit apply_temperature mode).branch_names
      = writeSeq
          (circuit.lines.length + circuit.transformers2w.length
            + circuit.vsc_converters.length)
          (circuit.dc_lines.map (fun e => e.name))
          (writeSeq (circuit.lines.length + circuit.transformers2w.length)
            (circuit.vsc_converters.map (fun e => e.name))
            (writeSeq circuit.lines.length
              (circuit.transformers2w.map (fun e => e.name))
              (writeSeq 0 (circuit.lines.map (fun e => e.name))
                (List.replicate
                  (circuit.lines.length + circuit.transformers2w.length
                    + circuit.vsc_converters.length + circuit.dc_lines.length)
                  "")))) := by
  simp [get_branch_data, BranchData.blank, branchDcAux_branch_names,
        branchVscAux_branch_names, branchTrAux_branch_names,
        branchLinesAux_branch_names]

theorem get_branch_data_F (circuit : MultiCircuit)
    (apply_temperature : Bool) (mode : BranchImpedanceMode) :
    (get_branch_data circuit apply_temperature mode).F
      = writeSeq
          (circuit.lines.length + circuit.transformers2w.length
            + circuit.vsc_converters.length)
          (circuit.dc_lines.map (fun e => e.bus_from))
          (writeSeq (circuit.lines.length + circuit.transformers2w.length)
            (circuit.vsc_converters.map (fun e => e.bus_from))
            (writeSeq circuit.lines.length
              (circuit.transformers2w.map (fun e => e.bus_from))
              (writeSeq 0 (circuit.lines.map (fun e => e.bus_from))
                (List.replicate
                  (circuit.lines.length + circuit.transformers2w.length
                    + circuit.vsc_converters.length + circuit.dc_lines.length)
                  0)))) := by
  simp [get_branch_data, BranchData.blank, branchDcAux_F,
        branchVscAux_F, branchTrAux_F, branchLinesAux_F]

theorem get_branch_data_T (circuit : MultiCircuit)
    (apply_temperature : Bool) (mode : BranchImpedanceMode) :
    (get_branch_data circuit apply_temperature mode).T
      = writeSeq
          (circuit.lines.length + circuit.transformers2w.length
            + circuit.vsc_converters.length)
          (circuit.dc_lines.map (fun e => e.bus_to))
          (writeSeq (circuit.lines.length + circuit.transformers2w.length)
            (circuit.vsc_converters.map (fun e => e.bus_to))
            (writeSeq circuit.lines.length
              (circuit.transformers2w.map (fun e => e.bus_to))
              (writeSeq 0 (circuit.lines.map (fun e => e.bus_to))
                (List.replicate
                  (circuit.lines.length + circuit.transformers2w.length
                    + circuit.vsc_converters.length + circuit.dc_lines.length)
                  0)))) := by
  simp [get_branch_data, BranchData.blank, branchDcAux_T,
        branchVscAux_T, branchTrAux_T, branchLinesAux_T]

/-- C6: get_branch_data returns a unified container of length
nline + ntr + nvsc + ndcline in which the name, from-index and to-index
of AC line i sit at position i, of 2-winding transformer i at position
nline + i, of converter i at position nline + ntr + i, and of DC-line i
at position nline + ntr + nvsc + i, each class in input enumeration
order. -/
theorem C6_branch_stacking_order (circuit : MultiCircuit)
    (apply_temperature : Bool) (mode : BranchImpedanceMode) :
    ((get_branch_data circuit apply_temperature mode).branch_names.length
        = circuit.lines.length + circuit.transformers2w.length
          + circuit.vsc_converters.length + circuit.dc_lines.length)
    ∧ (∀ i, i < circuit.lines.length →
        (get_branch_data circuit apply_temperature mode).branch_names.getD i ""
            = (circuit.lines.getD i default).name
          ∧ (get_branch_data circuit apply_temperature mode).F.getD i 0
            = (circuit.lines.getD i default).bus_from
          ∧ (get_branch_data circuit apply_temperature mode).T.getD i 0
            = (circuit.lines.getD i default).bus_to)
    ∧ (∀ i, i < circuit.transformers2w.length →
        (get_branch_data circuit apply_temperature mode).branch_names.getD
            (circuit.lines.length + i) ""
            = (circuit.transformers2w.getD i default).name
          ∧ (get_branch_data circuit apply_temperature mode).F.getD
            (circuit.lines.length + i) 0
            = (circuit.transformers2w.getD i default).bus_from
          ∧ (get_branch_data circuit apply_temperature mode).T.getD
            (circuit.lines.length + i) 0
            = (circuit.transformers2w.getD i default).bus_to)
    ∧ (∀ i, i < circuit.vsc_converters.length →
        (get_branch_data circuit apply_temperature mode).branch_names.getD
            (circuit.lines.length + circuit.transformers2w.length + i) ""
            = (circuit.vsc_converters.getD i default).name
          ∧ (get_branch_data circuit apply_temperature mode).F.getD
            (circuit.lines.length + circuit.transformers2w.length + i) 0
            = (circuit.vsc_converters.getD i default).bus_from
          ∧ (get_branch_data circuit apply_temperature mode).T.getD
            (circuit.lines.length + circuit.transformers2w.length + i) 0
            = (circuit.vsc_converters.getD i default).bus_to)
    ∧ (∀ i, i < circuit.dc_lines.length →
        (get_branch_data circuit apply_temperature mode).branch_names.getD
            (circuit.lines.length + circuit.transformers2w.length
              + circuit.vsc_converters.length + i) ""
            = (circuit.dc_lines.getD i default).name
          ∧ (get_branch_data circuit apply_temperature mode).F.getD
            (circuit.lines.length + circuit.transformers2w.length
              + circuit.vsc_converters.length + i) 0
            = (circuit.dc_lines.getD i default).bus_from
          ∧ (get_branch_data circuit apply_temperature mode).T.getD
            (circuit.lines.length + circuit.transformers2w.length
              + circuit.vsc_converters.length + i) 0
            = (circuit.dc_lines.getD i default).bus_to) := by
  have hn := get_branch_data_branch_names circuit apply_temperature mode
  have hf := get_branch_data_F circuit apply_temperature mode
  have ht := get_branch_data_T circuit apply_temperature mode
  obtain ⟨hLn, hAn, hBn, hCn, hEn⟩ :=
    writeSeq4_getD (circuit.lines.map (fun e => e.name))
      (circuit.transformers2w.map (fun e => e.name))
      (circuit.vsc_converters.map (fun e => e.name))
      (circuit.dc_lines.map (fun e => e.name))
      (List.replicate (circuit.lines.length + circuit.transformers2w.length
        + circuit.vsc_converters.length + circuit.dc_lines.length) "") ""
      (by simp)
  simp only [List.length_map, List.length_replicate] at hLn hAn hBn hCn hEn
  obtain ⟨hLf, hAf, hBf, hCf, hEf⟩ :=
    writeSeq4_getD (circuit.lines.map (fun e => e.bus_from))
      (circuit.transformers2w.map (fun e => e.bus_from))
      (circuit.vsc_converters.map (fun e => e.bus_from))
      (circuit.dc_lines.map (fun e => e.bus_from))
      (List.replicate (circuit.lines.length + circuit.transformers2w.length
        + circuit.vsc_converters.length + circuit.dc_lines.length) 0) 0
      (by simp)
  simp only [List.length_map, List.length_replicate] at hLf hAf hBf hCf hEf
  obtain ⟨hLt, hAt, hBt, hCt, hEt⟩ :=
    writeSeq4_getD (circuit.lines.map (fun e => e.bus_to))
      (circuit.transformers2w.map (fun e => e.bus_to))
      (circuit.vsc_converters.map (fun e => e.bus_to))
      (circuit.dc_lines.map (fun e => e.bus_to))
      (List.replicate (circuit.lines.length + circuit.transformers2w.length
        + circuit.vsc_converters.length + circuit.dc_lines.length) 0) 0
      (by simp)
  simp only [List.length_map, List.length_replicate] at hLt hAt hBt hCt hEt
  refine ⟨?_, ?_, ?_, ?_, ?_⟩
  · rw [hn, hLn]
  · intro i hi
    exact ⟨by rw [hn, hAn i hi, getD_map_lt _ _ _ _ hi],
           by rw [hf, hAf i hi, getD_map_lt _ _ _ _ hi],
           by rw [ht, hAt i hi, getD_map_lt _ _ _ _ hi]⟩
  · intro i hi
    exact ⟨by rw [hn, hBn i hi, getD_map_lt _ _ _ _ hi],
           by rw [hf, hBf i hi, getD_map_lt _ _ _ _ hi],
           by rw [ht, hBt i hi, getD_map_lt _ _ _ _ hi]⟩
  · intro i hi
    exact ⟨by rw [hn, hCn i hi, getD_map_lt _ _ _ _ hi],
           by rw [hf, hCf i hi, getD_map_lt _ _ _ _ hi],
           by rw [ht, hCt i hi, getD_map_lt _ _ _ _ hi]⟩
  · intro i hi
    exact ⟨by rw [hn, hEn i hi, getD_map_lt _ _ _ _ hi],
           by rw [hf, hEf i hi, getD_map_lt _ _ _ _ hi],
           by rw [ht, hEt i hi, getD_map_lt _ _ _ _ hi]⟩

/-- Example circuit with 2 lines, 1 transformer, 1 converter and 1
DC-line, used by the stacking-order witness. -/
def exStackCircuit : MultiCircuit where
  buses := [⟨"B0"⟩, ⟨"B1"⟩]
  lines :=
    [ { name := "L0", bus_from := 0, bus_to := 1, R := 1, R_corrected := 1
      , X := 1, B := 0, tolerance := 0, active := true, rate := 10, Cost := 0 }
    , { name := "L1", bus_from := 1, bus_to := 0, R := 1, R_corrected := 1
      , X := 1, B := 0, tolerance := 0, active := true, rate := 10, Cost := 0 } ]
  transformers2w :=
    [ { name := "TR0", bus_from := 0, bus_to := 1, R := 1, X := 1, G := 0
      , B := 0, tap_module := 1, angle := 0
      , control_mode := TransformerControlType.fixed, vset := 1
      , tap_f := 1, tap_t := 1, active := true, rate := 10, Cost := 0 } ]
  vsc_converters :=
    [ { name := "VS0", bus_from := 0, bus_to := 1, R1 := 1, X1 := 1, G0 := 0
      , Beq := 0, m := 1, theta := 0, Pset := 0, Qset := 0, kdp := 0
      , Vac_set := 1, Vdc_set := 1
      , control_mode := ConverterControlType.type_0_free
      , active := true, rate := 10, Cost := 0 } ]
  dc_lines :=
    [ { name := "DC0", bus_from := 1, bus_to := 0, R := 1, R_corrected := 1
      , tolerance := 0, temp_base := 20, temp_oper := 20, alpha := 0
      , active := true, rate := 10, Cost := 0 } ]
  generators := []
  batteries := []
  hvdc_lines := []

/-- Witness for C6 at the specification example 2 lines + 1 transformer +
1 converter + 1 DC-line: unified length 5, lines at 0 and 1, transformer
at 2, converter at 3, DC-line at 4. -/
theorem C6_branch_stacking_order_witness :
    (get_branch_data exStackCircuit false BranchImpedanceMode.Nominal).branch_names.length = 5
    ∧ (get_branch_data exStackCircuit false BranchImpedanceMode.Nominal).branch_names.getD 0 "" = "L0"
    ∧ (get_branch_data exStackCircuit false BranchImpedanceMode.Nominal).branch_names.getD 1 "" = "L1"
    ∧ (get_branch_data exStackCircuit false BranchImpedanceMode.Nominal).branch_names.getD 2 "" = "TR0"
    ∧ (get_branch_data exStackCircuit false BranchImpedanceMode.Nominal).branch_names.getD 3 "" = "VS0"
    ∧ (get_branch_data exStackCircuit false BranchImpedanceMode.Nominal).branch_names.getD 4 "" = "DC0" := by
  have h := C6_branch_stacking_order exStackCircuit false BranchImpedanceMode.Nominal
  refine ⟨h.1.trans (by decide), ?_, ?_, ?_, ?_, ?_⟩
  · exact ((h.2.1 0 (by decide)).1).trans rfl
  · exact ((h.2.1 1 (by decide)).1).trans rfl
  · have := (h.2.2.1 0 (by decide)).1
    simpa using this
  · have := (h.2.2.2.1 0 (by decide)).1
    simpa using this
  · have := (h.2.2.2.2 0 (by decide)).1
    simpa using this

/-- Failing input for C1: one AC line with series resistance 1 and one
DC line with series resistance 2, nominal tolerance mode, no temperature
correction. -/
def exDcBugCircuit : MultiCircuit where
  buses := [⟨"B0"⟩, ⟨"B1"⟩]
  lines :=
    [ { name := "L0", bus_from := 0, bus_to := 1, R := 1, R_corrected := 1
      , X := 1, B := 0, tolerance := 0, active := true, rate := 10, Cost := 0 } ]
  transformers2w := []
  vsc_converters := []
  dc_lines :=
    [ { name := "DC0", bus_from := 1, bus_to := 0, R := 2, R_corrected := 2
      , tolerance := 0, temp_base := 20, temp_oper := 20, alpha := 0
      , active := true, rate := 10, Cost := 0 } ]
  generators := []
  batteries := []
  hvdc_lines := []

/-- C1 evaluated at the failing input: the DC-line pass of
get_branch_data writes the corrected DC resistance through the unshifted
loop index (data.R[i] instead of data.R[ii], circuit_to_data.py line
644), so with one line (R = 1) and one DC-line (R = 2) the resistance
array comes out [2, 0]: the AC line entry at position 0 is clobbered
with the DC value and the DC position nline + ntr + nvsc + 0 = 1 keeps
its zero initial value instead of the DC resistance. -/
theorem C1_dc_line_resistance_misindexed :
    (get_branch_data exDcBugCircuit false BranchImpedanceMode.Nominal).R = [2, 0]
    ∧ (exDcBugCircuit.lines.getD 0 default).R = 1
    ∧ (exDcBugCircuit.dc_lines.getD 0 default).R = 2 := by
  refine ⟨?_, rfl, rfl⟩
  rfl

/-
  Generator and battery builders (get_generator_data, get_battery_data)
  with the shared voltage-seed buffer and diagnostic log.

  The opf_results netting path (opf_results is None here) is omitted, and
  profile fields are abstracted to one value per device as noted on the
  device structures, so the snapshot and time-series assignment branches
  collapse; the seed-conflict logic under verification sits outside that
  branching in the source.
-/

/-- Log line appended on a setpoint conflict: the bus name and both
values, as built by string concatenation in the source. -/
def conflictMsg (bus_name : String) (vset : ℚ) (cur : Cpx) : String :=
  "Different set points at " ++ bus_name ++ ": " ++ toString vset
    ++ " !=" ++ Cpx.str cur

/-- Shared tail of the generator and battery loops
(circuit_to_data.py lines 204-207 and 288-291): when the seed at bus i
has real part 1.0 the whole row is overwritten with complex(Vset, 0);
otherwise, when the setpoint differs from the stored seed, one warning
is appended and the seed is kept. -/
def applySetpoint (bus_name : String) (i : Nat) (Vset : ℚ)
    (Vbus : List Cpx) (logger : List String) : List Cpx × List String :=
  if (Vbus.getD i 0).re = 1 then
    (Vbus.set i ⟨Vset, 0⟩, logger)
  else if (⟨Vset, 0⟩ : Cpx) ≠ Vbus.getD i 0 then
    (Vbus, logger ++ [conflictMsg bus_name Vset (Vbus.getD i 0)])
  else
    (Vbus, logger)

/-- Generator container of get_generator_data; opf-only fields hold
their written value when opf is set and stay at the zeroed default
otherwise (the non-opf source container has no such fields). -/
structure GeneratorData where
  generator_names : List String
  generator_qmin : List ℚ
  generator_qmax : List ℚ
  generator_controllable : List Bool
  generator_installed_p : List ℚ
  generator_p : List ℚ
  generator_active : List Bool
  generator_pf : List ℚ
  generator_v : List ℚ
  generator_dispatchable : List Bool
  generator_pmax : List ℚ
  generator_pmin : List ℚ
  generator_cost : List ℚ
deriving DecidableEq, Repr

/-- Embedding of get_generator_data: per device, fill the parallel
arrays, then run the seed-conflict tail against the shared Vbus buffer
and logger, and continue with the remaining devices. -/
def get_generator_data (buses : List BusDev) (devices : List GeneratorDev)
    (Vbus : List Cpx) (logger : List String) (time_series opf : Bool) :
    GeneratorData × List Cpx × List String :=
  match devices with
  | [] => (⟨[], [], [], [], [], [], [], [], [], [], [], [], []⟩, Vbus, logger)
  | elm :: rest =>
      let i := elm.bus
      let s := applySetpoint (buses.getD i default).name i elm.Vset Vbus logger
      let r := get_generator_data buses rest s.1 s.2 time_series opf
      ({ generator_names := elm.name :: r.1.generator_names
       , generator_qmin := elm.Qmin :: r.1.generator_qmin
       , generator_qmax := elm.Qmax :: r.1.generator_qmax
       , generator_controllable := elm.is_controlled :: r.1.generator_controllable
       , generator_installed_p := elm.Snom :: r.1.generator_installed_p
       , generator_p := elm.P :: r.1.generator_p
       , generator_active := elm.active :: r.1.generator_active
       , generator_pf := elm.Pf :: r.1.generator_pf
       , generator_v := elm.Vset :: r.1.generator_v
       , generator_dispatchable :=
           (if opf then elm.enabled_dispatch else false) :: r.1.generator_dispatchable
       , generator_pmax := (if opf then elm.Pmax else 0) :: r.1.generator_pmax
       , generator_pmin := (if opf then elm.Pmin else 0) :: r.1.generator_pmin
       , generator_cost := (if opf then elm.Cost else 0) :: r.1.generator_cost },
       r.2.1, r.2.2)

/-- Battery container of get_battery_data; opf-only fields as for the
generator container. -/
structure BatteryData where
  battery_names : List String
  battery_qmin : List ℚ
  battery_qmax : List ℚ
  battery_controllable : List Bool
  battery_installed_p : List ℚ
  battery_p : List ℚ
  battery_active : List Bool
  battery_pf : List ℚ
  battery_v : List ℚ
  battery_dispatchable : List Bool
  battery_pmax : List ℚ
  battery_pmin : List ℚ
  battery_enom : List ℚ
  battery_min_soc : List ℚ
  battery_max_soc : List ℚ
  battery_soc_0 : List ℚ
  battery_discharge_efficiency : List ℚ
  battery_charge_efficiency : List ℚ
  battery_cost : List ℚ
deriving DecidableEq, Repr

/-- Embedding of get_battery_data.  Both the snapshot and the
time-series branch of the source write battery_min_soc from elm.max_soc
(circuit_to_data.py lines 255-256 and 276-277), which this single
assignment reproduces. -/
def get_battery_data (buses : List BusDev) (devices : List BatteryDev)
    (Vbus : List Cpx) (logger : List String) (time_series opf : Bool) :
    BatteryData × List Cpx × List String :=
  match devices with
  | [] =>
      (⟨[], [], [], [], [], [], [], [], [], [], [], [], [], [], [], [], [], [], []⟩,
       Vbus, logger)
  | elm :: rest =>
      let i := elm.bus
      let s := applySetpoint (buses.getD i default).name i elm.Vset Vbus logger
      let r := get_battery_data buses rest s.1 s.2 time_series opf
      ({ battery_names := elm.name :: r.1.battery_names
       , battery_qmin := elm.Qmin :: r.1.battery_qmin
       , battery_qmax := elm.Qmax :: r.1.battery_qmax
       , battery_controllable := elm.is_controlled :: r.1.battery_controllable
       , battery_installed_p := elm.Snom :: r.1.battery_installed_p
       , battery_p := elm.P :: r.1.battery_p
       , battery_active := elm.active :: r.1.battery_active
       , battery_pf := elm.Pf :: r.1.battery_pf
       , battery_v := elm.Vset :: r.1.battery_v
       , battery_dispatchable :=
           (if opf then elm.enabled_dispatch else false) :: r.1.battery_dispatchable
       , battery_pmax := (if opf then elm.Pmax else 0) :: r.1.battery_pmax
       , battery_pmin := (if opf then elm.Pmin else 0) :: r.1.battery_pmin
       , battery_enom := (if opf then elm.Enom else 0) :: r.1.battery_enom
       , battery_min_soc := (if opf then elm.max_soc else 0) :: r.1.battery_min_soc
       , battery_max_soc := (if opf then elm.max_soc else 0) :: r.1.battery_max_soc
       , battery_soc_0 := (if opf then elm.soc_0 else 0) :: r.1.battery_soc_0
       , battery_discharge_efficiency :=
           (if opf then elm.discharge_efficiency else 0) :: r.1.battery_discharge_efficiency
       , battery_charge_efficiency :=
           (if opf then elm.charge_efficiency else 0) :: r.1.battery_charge_efficiency
       , battery_cost := (if opf then elm.Cost else 0) :: r.1.battery_cost },
       r.2.1, r.2.2)

/-- C10: with the opf flag set (snapshot or time-series), get_battery_data
stores the device's max_soc into both the battery_min_soc and the
battery_max_soc entry of every battery, so the two bounds coincide and
the device's own min_soc value is never written. -/
theorem C10_battery_min_soc_is_max_soc (buses : List BusDev)
    (devices : List BatteryDev) (Vbus : List Cpx) (logger : List String)
    (time_series : Bool) (k : Nat) (hk : k < devices.length) :
    (get_battery_data buses devices Vbus logger time_series
        true).1.battery_min_soc.getD k 0
      = (devices.getD k default).max_soc
    ∧ (get_battery_data buses devices Vbus logger time_series
        true).1.battery_max_soc.getD k 0
      = (devices.getD k default).max_soc := by
  induction devices generalizing k Vbus logger with
  | nil => simp at hk
  | cons elm rest ih =>
    cases k with
    | zero => constructor <;> simp [get_battery_data]
    | succ k0 =>
      have hk0 : k0 < rest.length := by simpa using hk
      constructor <;>
        simp only [get_battery_data, List.getD_cons_succ] <;>
        [exact (ih _ _ k0 hk0).1; exact (ih _ _ k0 hk0).2]

/-- Example battery used by the C10 witness. -/
def exBattery : BatteryDev :=
  { name := "BT0", bus := 0, P := 5, Pf := 1, Vset := 1, Qmin := -10
  , Qmax := 10, Snom := 20, Enom := 50, Pmax := 10, Pmin := -10
  , max_soc := 99/100, min_soc := 1/5, soc_0 := 1/2
  , discharge_efficiency := 9/10, charge_efficiency := 9/10, Cost := 1
  , active := true, is_controlled := true, enabled_dispatch := true }

/-- Witness for C10: one battery with max_soc = 0.99 and min_soc = 0.2
in opf mode stores 0.99 in both SoC bound entries. -/
theorem C10_battery_min_soc_is_max_soc_witness :
    (get_battery_data [⟨"B0"⟩] [exBattery] [⟨1, 0⟩] [] false
        true).1.battery_min_soc.getD 0 0
      = (([exBattery] : List BatteryDev).getD 0 default).max_soc
    ∧ (get_battery_data [⟨"B0"⟩] [exBattery] [⟨1, 0⟩] [] false
        true).1.battery_max_soc.getD 0 0
      = (([exBattery] : List BatteryDev).getD 0 default).max_soc :=
  C10_battery_min_soc_is_max_soc [⟨"B0"⟩] [exBattery] [⟨1, 0⟩] [] false 0
    (by decide)

/-- First device at a sentinel-seeded bus: the real-part test passes and
the row is overwritten with complex(Vset, 0), no log line. -/
theorem applySetpoint_first (bus_name : String) (b : Nat) (Vset : ℚ)
    (V : List Cpx) (l : List String) (hseed : V.getD b 0 = ⟨1, 0⟩) :
    applySetpoint bus_name b Vset V l = (V.set b ⟨Vset, 0⟩, l) := by
  unfold applySetpoint
  rw [if_pos (by rw [hseed])]

/-- Once the seed at bus b holds a value with real part different from 1,
a fold of further setpoint applications at b leaves the seed buffer
unchanged and appends exactly one conflict line per differing setpoint,
in order. -/
theorem applySetpoint_fold_keep (bus_name : String) (b : Nat) (v0 : ℚ)
    (hv0 : v0 ≠ 1) (vs : List ℚ) (V : List Cpx) (l : List String)
    (hcur : V.getD b 0 = ⟨v0, 0⟩) :
    (vs.foldl (fun s v => applySetpoint bus_name b v s.1 s.2) (V, l)).1 = V
    ∧ (vs.foldl (fun s v => applySetpoint bus_name b v s.1 s.2) (V, l)).2
      = l ++ (vs.filter (fun v => decide ¬(v = v0))).map
          (fun v => conflictMsg bus_name v ⟨v0, 0⟩) := by
  induction vs generalizing l with
  | nil => exact ⟨rfl, by simp⟩
  | cons v rest ih =>
    rw [List.foldl_cons]
    have h1 : ¬ ((V.getD b 0).re = 1) := by rw [hcur]; simpa using hv0
    by_cases hv : v = v0
    · have hstep : applySetpoint bus_name b v V l = (V, l) := by
        unfold applySetpoint
        rw [if_neg h1, if_neg (by rw [hcur, hv]; simp)]
      rw [hstep]
      obtain ⟨ha, hb2⟩ := ih l
      refine ⟨ha, ?_⟩
      rw [hb2]
      simp [hv]
    · have hstep : applySetpoint bus_name b v V l
          = (V, l ++ [conflictMsg bus_name v ⟨v0, 0⟩]) := by
        unfold applySetpoint
        rw [hcur, if_neg (by simpa using hv0),
            if_pos (fun he => hv (congrArg Cpx.re he))]
      rw [hstep]
      obtain ⟨ha, hb2⟩ := ih (l ++ [conflictMsg bus_name v ⟨v0, 0⟩])
      refine ⟨ha, ?_⟩
      rw [hb2]
      simp [hv]

/-- The Vbus/logger pair threaded through get_generator_data is the fold
of the setpoint tail over the devices. -/
theorem get_generator_data_seed (buses : List BusDev)
    (devices : List GeneratorDev) (Vbus : List Cpx) (logger : List String)
    (time_series opf : Bool) :
    (get_generator_data buses devices Vbus logger time_series opf).2
      = devices.foldl
          (fun s e => applySetpoint (buses.getD e.bus default).name e.bus
            e.Vset s.1 s.2) (Vbus, logger) := by
  induction devices generalizing Vbus logger with
  | nil => rfl
  | cons e rest ih => simp [get_generator_data, ih]

/-- The Vbus/logger pair threaded through get_battery_data is the fold
of the setpoint tail over the devices. -/
theorem get_battery_data_seed (buses : List BusDev)
    (devices : List BatteryDev) (Vbus : List Cpx) (logger : List String)
    (time_series opf : Bool) :
    (get_battery_data buses devices Vbus logger time_series opf).2
      = devices.foldl
          (fun s e => applySetpoint (buses.getD e.bus default).name e.bus
            e.Vset s.1 s.2) (Vbus, logger) := by
  induction devices generalizing Vbus logger with
  | nil => rfl
  | cons e rest ih => simp [get_battery_data, ih]

/-- When every device targets bus b, the device fold reduces to a fold
over the setpoint values alone. -/
theorem fold_setpoints_eq {α : Type} (busOf : α → Nat) (vsetOf : α → ℚ)
    (buses : List BusDev) (b : Nat) (devs : List α)
    (hdevs : ∀ e ∈ devs, busOf e = b) (s : List Cpx × List String) :
    devs.foldl
        (fun s e => applySetpoint (buses.getD (busOf e) default).name
          (busOf e) (vsetOf e) s.1 s.2) s
      = (devs.map vsetOf).foldl
          (fun s v => applySetpoint (buses.getD b default).name b v s.1 s.2)
          s := by
  induction devs generalizing s with
  | nil => rfl
  | cons e rest ih =>
    rw [List.map_cons, List.foldl_cons, List.foldl_cons, hdevs e (by simp)]
    exact ih (fun x hx => hdevs x (by simp [hx])) _

/-- C2 (amended): the overwrite test of the source is whether the current
seed's real part equals 1.0 (the sentinel real part), not whether the
device is the first at the bus.  Provided the first device's setpoint
differs from 1, the first device sets the seed to complex(Vset, 0)
unconditionally, and every subsequent generator or battery at the bus
whose setpoint differs from the stored one leaves the seed alone and
appends exactly one warning naming the bus and both values, so the first
setpoint is kept. -/
theorem C2_first_wins_amended (buses : List BusDev) (b : Nat)
    (g0 : GeneratorDev) (grest : List GeneratorDev)
    (b0 : BatteryDev) (brest : List BatteryDev)
    (Vbus : List Cpx) (logger : List String) (time_series opf : Bool)
    (hb : b < Vbus.length) (hseed : Vbus.getD b 0 = ⟨1, 0⟩)
    (hg0 : g0.bus = b) (hgrest : ∀ e ∈ grest, e.bus = b) (hgv : g0.Vset ≠ 1)
    (hb0 : b0.bus = b) (hbrest : ∀ e ∈ brest, e.bus = b)
    (hbv : b0.Vset ≠ 1) :
    ((get_generator_data buses (g0 :: grest) Vbus logger time_series
          opf).2.1.getD b 0 = ⟨g0.Vset, 0⟩
      ∧ (get_generator_data buses (g0 :: grest) Vbus logger time_series
          opf).2.2
        = logger ++ ((grest.map (fun e => e.Vset)).filter
            (fun v => decide ¬(v = g0.Vset))).map
            (fun v => conflictMsg (buses.getD b default).name v
              ⟨g0.Vset, 0⟩))
    ∧ ((get_battery_data buses (b0 :: brest) Vbus logger time_series
          opf).2.1.getD b 0 = ⟨b0.Vset, 0⟩
      ∧ (get_battery_data buses (b0 :: brest) Vbus logger time_series
          opf).2.2
        = logger ++ ((brest.map (fun e => e.Vset)).filter
            (fun v => decide ¬(v = b0.Vset))).map
            (fun v => conflictMsg (buses.getD b default).name v
              ⟨b0.Vset, 0⟩)) := by
  have hg2 : (get_generator_data buses (g0 :: grest) Vbus logger time_series
        opf).2
      = ((g0 :: grest).map (fun e => e.Vset)).foldl
          (fun s v => applySetpoint (buses.getD b default).name b v s.1 s.2)
          (Vbus, logger) :=
    (get_generator_data_seed buses (g0 :: grest) Vbus logger time_series
        opf).trans
      (fold_setpoints_eq (fun e => e.bus) (fun e => e.Vset) buses b
        (g0 :: grest)
        (fun e he => by
          rcases List.mem_cons.mp he with rfl | hm
          · exact hg0
          · exact hgrest e hm)
        (Vbus, logger))
  have hb2 : (get_battery_data buses (b0 :: brest) Vbus logger time_series
        opf).2
      = ((b0 :: brest).map (fun e => e.Vset)).foldl
          (fun s v => applySetpoint (buses.getD b default).name b v s.1 s.2)
          (Vbus, logger) :=
    (get_battery_data_seed buses (b0 :: brest) Vbus logger time_series
        opf).trans
      (fold_setpoints_eq (fun e => e.bus) (fun e => e.Vset) buses b
        (b0 :: brest)
        (fun e he => by
          rcases List.mem_cons.mp he with rfl | hm
          · exact hb0
          · exact hbrest e hm)
        (Vbus, logger))
  rw [List.map_cons, List.foldl_cons,
      applySetpoint_first _ _ _ _ _ hseed] at hg2 hb2
  obtain ⟨hgk1, hgk2⟩ := applySetpoint_fold_keep (buses.getD b default).name
    b g0.Vset hgv (grest.map (fun e => e.Vset))
    (Vbus.set b ⟨g0.Vset, 0⟩) logger
    (getD_set_self Vbus b ⟨g0.Vset, 0⟩ 0 hb)
  obtain ⟨hbk1, hbk2⟩ := applySetpoint_fold_keep (buses.getD b default).name
    b b0.Vset hbv (brest.map (fun e => e.Vset))
    (Vbus.set b ⟨b0.Vset, 0⟩) logger
    (getD_set_self Vbus b ⟨b0.Vset, 0⟩ 0 hb)
  refine ⟨⟨?_, ?_⟩, ?_, ?_⟩
  · rw [hg2, hgk1]
    exact getD_set_self Vbus b ⟨g0.Vset, 0⟩ 0 hb
  · rw [hg2, hgk2]
  · rw [hb2, hbk1]
    exact getD_set_self Vbus b ⟨b0.Vset, 0⟩ 0 hb
  · rw [hb2, hbk2]

/-- Generator with the sentinel-valued setpoint 1.0, first at its bus. -/
def exSeedGenA : GeneratorDev :=
  { name := "G0", bus := 0, P := 1, Pf := 1, Vset := 1, Qmin := 0
  , Qmax := 0, Snom := 10, Pmax := 10, Pmin := 0, Cost := 0
  , active := true, is_controlled := true, enabled_dispatch := true }

/-- Generator with setpoint 1.05, second at the same bus. -/
def exSeedGenB : GeneratorDev :=
  { name := "G1", bus := 0, P := 1, Pf := 1, Vset := 21/20, Qmin := 0
  , Qmax := 0, Snom := 10, Pmax := 10, Pmin := 0, Cost := 0
  , active := true, is_controlled := true, enabled_dispatch := true }

/-- Counterexample to C2 as stated: at a sentinel-seeded bus, a first
generator with Vset = 1.0 followed by one with Vset = 1.05 ends with
seed 1.05 and an empty log, although the second setpoint differs from
the seed the first device stored - the first setpoint is not kept and no
warning is appended, because the source re-tests the sentinel real part
instead of remembering that the bus was already seeded. -/
theorem C2_sentinel_first_setpoint_overwritten :
    (get_generator_data [⟨"B0"⟩] [exSeedGenA, exSeedGenB] [⟨1, 0⟩] []
        false false).2.1 = [⟨21/20, 0⟩]
    ∧ (get_generator_data [⟨"B0"⟩] [exSeedGenA, exSeedGenB] [⟨1, 0⟩] []
        false false).2.2 = ([] : List String)
    ∧ exSeedGenA.Vset = 1 ∧ exSeedGenB.Vset = 21/20
    ∧ exSeedGenB.Vset ≠ exSeedGenA.Vset :=
  ⟨rfl, rfl, rfl, rfl, by norm_num [exSeedGenA, exSeedGenB]⟩

/-- Generator with setpoint 1.02 for the amended-claim witness. -/
def exGen102 : GeneratorDev :=
  { name := "G2", bus := 0, P := 1, Pf := 1, Vset := 51/50, Qmin := 0
  , Qmax := 0, Snom := 10, Pmax := 10, Pmin := 0, Cost := 0
  , active := true, is_controlled := true, enabled_dispatch := true }

/-- Generator with setpoint 1.05 for the amended-claim witness. -/
def exGen105 : GeneratorDev :=
  { name := "G3", bus := 0, P := 1, Pf := 1, Vset := 21/20, Qmin := 0
  , Qmax := 0, Snom := 10, Pmax := 10, Pmin := 0, Cost := 0
  , active := true, is_controlled := true, enabled_dispatch := true }

/-- Battery with setpoint 1.02 for the amended-claim witness. -/
def exBatt102 : BatteryDev :=
  { name := "BT2", bus := 0, P := 1, Pf := 1, Vset := 51/50, Qmin := 0
  , Qmax := 0, Snom := 10, Enom := 10, Pmax := 10, Pmin := 0
  , max_soc := 1, min_soc := 0, soc_0 := 1, discharge_efficiency := 1
  , charge_efficiency := 1, Cost := 0, active := true
  , is_controlled := true, enabled_dispatch := true }

/-- Battery with setpoint 1.05 for the amended-claim witness. -/
def exBatt105 : BatteryDev :=
  { name := "BT3", bus := 0, P := 1, Pf := 1, Vset := 21/20, Qmin := 0
  , Qmax := 0, Snom := 10, Enom := 10, Pmax := 10, Pmin := 0
  , max_soc := 1, min_soc := 0, soc_0 := 1, discharge_efficiency := 1
  , charge_efficiency := 1, Cost := 0, active := true
  , is_controlled := true, enabled_dispatch := true }

/-- Witness for the amended C2 at the specification example: setpoints
1.02 then 1.05 at one sentinel-seeded bus keep 1.02 and log one conflict
line, for generators and batteries alike. -/
theorem C2_first_wins_amended_witness :
    ((get_generator_data [⟨"B0"⟩] [exGen102, exGen105] [⟨1, 0⟩] []
          false false).2.1.getD 0 0 = ⟨exGen102.Vset, 0⟩
      ∧ (get_generator_data [⟨"B0"⟩] [exGen102, exGen105] [⟨1, 0⟩] []
          false false).2.2
        = [] ++ ((([exGen105] : List GeneratorDev).map
            (fun e => e.Vset)).filter
            (fun v => decide ¬(v = exGen102.Vset))).map
            (fun v => conflictMsg
              (([⟨"B0"⟩] : List BusDev).getD 0 default).name v
              ⟨exGen102.Vset, 0⟩))
    ∧ ((get_battery_data [⟨"B0"⟩] [exBatt102, exBatt105] [⟨1, 0⟩] []
          false false).2.1.getD 0 0 = ⟨exBatt102.Vset, 0⟩
      ∧ (get_battery_data [⟨"B0"⟩] [exBatt102, exBatt105] [⟨1, 0⟩] []
          false false).2.2
        = [] ++ ((([exBatt105] : List BatteryDev).map
            (fun e => e.Vset)).filter
            (fun v => decide ¬(v = exBatt102.Vset))).map
            (fun v => conflictMsg
              (([⟨"B0"⟩] : List BusDev).getD 0 default).name v
              ⟨exBatt102.Vset, 0⟩)) :=
  C2_first_wins_amended [⟨"B0"⟩] 0 exGen102 [exGen105] exBatt102 [exBatt105]
    [⟨1, 0⟩] [] false false (by decide) rfl rfl
    (fun e he => by rw [List.mem_singleton] at he; subst he; rfl)
    (by norm_num [exGen102]) rfl
    (fun e he => by rw [List.mem_singleton] at he; subst he; rfl)
    (by norm_num [exBatt102])

/-
  HVDC builder (get_hvdc_data) and its bus-type side effect.
-/

/-- Bus type classification enumeration consumed from
GridCal.Engine.basic_structures; the builder only ever writes PV. -/
inductive BusMode
  | PQ
  | PV
  | Slack
  | NONE
deriving DecidableEq, Inhabited, Repr

/-- HvdcData container of get_hvdc_data (incidence matrices omitted). -/
structure HvdcData where
  hvdc_names : List String
  hvdc_active : List Bool
  hvdc_rate : List ℚ
  hvdc_Pf : List ℚ
  hvdc_Pt : List ℚ
  hvdc_Vset_f : List ℚ
  hvdc_Vset_t : List ℚ
  hvdc_loss_factor : List ℚ
  hvdc_Qmin_f : List ℚ
  hvdc_Qmax_f : List ℚ
  hvdc_Qmin_t : List ℚ
  hvdc_Qmax_t : List ℚ
deriving DecidableEq, Repr

/-- Side effect of one HVDC device on the shared bus-type buffer: an
active link rewrites both endpoint types to PV, an inactive one writes
nothing. -/
def hvdcStep (bus_types : List BusMode) (elm : HvdcDev) : List BusMode :=
  if elm.active then
    (bus_types.set elm.bus_from BusMode.PV).set elm.bus_to BusMode.PV
  else
    bus_types

/-- Embedding of get_hvdc_data: fills the per-link arrays and threads
the shared bus-type buffer through the per-link PV rewrite. -/
def get_hvdc_data (hvdc_lines : List HvdcDev) (bus_types : List BusMode) :
    HvdcData × List BusMode :=
  match hvdc_lines with
  | [] => (⟨[], [], [], [], [], [], [], [], [], [], [], []⟩, bus_types)
  | elm :: rest =>
      let bt := hvdcStep bus_types elm
      let r := get_hvdc_data rest bt
      ({ hvdc_names := elm.name :: r.1.hvdc_names
       , hvdc_active := elm.active :: r.1.hvdc_active
       , hvdc_rate := elm.rate :: r.1.hvdc_rate
       , hvdc_Pf := elm.Pf :: r.1.hvdc_Pf
       , hvdc_Pt := elm.Pt :: r.1.hvdc_Pt
       , hvdc_Vset_f := elm.Vset_f :: r.1.hvdc_Vset_f
       , hvdc_Vset_t := elm.Vset_t :: r.1.hvdc_Vset_t
       , hvdc_loss_factor := elm.loss_factor :: r.1.hvdc_loss_factor
       , hvdc_Qmin_f := elm.Qmin_f :: r.1.hvdc_Qmin_f
       , hvdc_Qmax_f := elm.Qmax_f :: r.1.hvdc_Qmax_f
       , hvdc_Qmin_t := elm.Qmin_t :: r.1.hvdc_Qmin_t
       , hvdc_Qmax_t := elm.Qmax_t :: r.1.hvdc_Qmax_t },
       r.2)

theorem get_hvdc_data_types (hvdc_lines : List HvdcDev)
    (bus_types : List BusMode) :
    (get_hvdc_data hvdc_lines bus_types).2
      = hvdc_lines.foldl hvdcStep bus_types := by
  induction hvdc_lines generalizing bus_types with
  | nil => rfl
  | cons elm rest ih => simp [get_hvdc_data, ih]

theorem hvdcStep_length (bus_types : List BusMode) (elm : HvdcDev) :
    (hvdcStep bus_types elm).length = bus_types.length := by
  unfold hvdcStep
  split <;> simp

theorem foldl_hvdcStep_length (ls : List HvdcDev) (bt : List BusMode) :
    (ls.foldl hvdcStep bt).length = bt.length := by
  induction ls generalizing bt with
  | nil => rfl
  | cons e rest ih => rw [List.foldl_cons, ih, hvdcStep_length]

/-- A PV entry survives a single-index PV write. -/
theorem getD_set_pv_stable (bt : List BusMode) (i j : Nat)
    (h : bt.getD j BusMode.PQ = BusMode.PV) :
    (bt.set i BusMode.PV).getD j BusMode.PQ = BusMode.PV := by
  have hlen : j < bt.length := by
    by_contra hle
    rw [List.getD_eq_getElem?_getD, List.getElem?_eq_none (by omega)] at h
    exact absurd h (by decide)
  by_cases hij : i = j
  · subst hij
    exact getD_set_self bt i _ _ hlen
  · rw [getD_set_ne _ _ _ _ _ hij]
    exact h

/-- A PV entry survives the whole remaining HVDC pass: every write of
the pass writes PV. -/
theorem foldl_hvdcStep_pv_stable (ls : List HvdcDev) (bt : List BusMode)
    (j : Nat) (h : bt.getD j BusMode.PQ = BusMode.PV) :
    (ls.foldl hvdcStep bt).getD j BusMode.PQ = BusMode.PV := by
  induction ls generalizing bt with
  | nil => exact h
  | cons e rest ih =>
    rw [List.foldl_cons]
    refine ih (hvdcStep bt e) ?_
    unfold hvdcStep
    split
    · exact getD_set_pv_stable _ _ _ (getD_set_pv_stable _ _ _ h)
    · exact h

/-- A position that is no endpoint of any active link in the list keeps
its entry across the pass. -/
theorem foldl_hvdcStep_untouched (ls : List HvdcDev) (bt : List BusMode)
    (j : Nat)
    (h : ∀ e ∈ ls, e.active = true → e.bus_from ≠ j ∧ e.bus_to ≠ j) :
    (ls.foldl hvdcStep bt).getD j BusMode.PQ = bt.getD j BusMode.PQ := by
  induction ls generalizing bt with
  | nil => rfl
  | cons e rest ih =>
    rw [List.foldl_cons, ih (hvdcStep bt e)
        (fun x hx hact => h x (List.mem_cons.mpr (Or.inr hx)) hact)]
    unfold hvdcStep
    split
    · next hact =>
        obtain ⟨hf, ht⟩ := h e (List.mem_cons_self e rest) hact
        rw [getD_set_ne _ _ _ _ _ ht, getD_set_ne _ _ _ _ _ hf]
    · rfl

/-- C7: after get_hvdc_data, both endpoints of every active HVDC link
are classified PV in the shared bus-type buffer regardless of their
prior type, and every bus that is no endpoint of any active link keeps
its prior classification. -/
theorem C7_hvdc_forces_pv (hvdc_lines : List HvdcDev)
    (bus_types : List BusMode)
    (hidx : ∀ e ∈ hvdc_lines,
      e.bus_from < bus_types.length ∧ e.bus_to < bus_types.length) :
    (∀ e ∈ hvdc_lines, e.active = true →
        (get_hvdc_data hvdc_lines bus_types).2.getD e.bus_from BusMode.PQ
            = BusMode.PV
        ∧ (get_hvdc_data hvdc_lines bus_types).2.getD e.bus_to BusMode.PQ
            = BusMode.PV)
    ∧ (∀ j, (∀ e ∈ hvdc_lines, e.active = true →
          e.bus_from ≠ j ∧ e.bus_to ≠ j) →
        (get_hvdc_data hvdc_lines bus_types).2.getD j BusMode.PQ
          = bus_types.getD j BusMode.PQ) := by
  rw [get_hvdc_data_types]
  constructor
  · induction hvdc_lines generalizing bus_types with
    | nil => intro e he; simp at he
    | cons elm rest ih =>
      intro e he hact
      rcases List.mem_cons.mp he with rfl | hm
      · rw [List.foldl_cons]
        have hstep : (hvdcStep bus_types e).getD e.bus_from BusMode.PQ
              = BusMode.PV
            ∧ (hvdcStep bus_types e).getD e.bus_to BusMode.PQ
              = BusMode.PV := by
          obtain ⟨hf, ht⟩ := hidx e (List.mem_cons_self e rest)
          unfold hvdcStep
          rw [if_pos hact]
          constructor
          · by_cases hft : e.bus_to = e.bus_from
            · rw [hft]
              exact getD_set_self _ _ _ _ (by simpa using hf)
            · rw [getD_set_ne _ _ _ _ _ hft]
              exact getD_set_self _ _ _ _ hf
          · exact getD_set_self _ _ _ _ (by simpa using ht)
        exact ⟨foldl_hvdcStep_pv_stable rest _ _ hstep.1,
               foldl_hvdcStep_pv_stable rest _ _ hstep.2⟩
      · rw [List.foldl_cons]
        have hidx2 : ∀ x ∈ rest,
            x.bus_from < (hvdcStep bus_types elm).length
            ∧ x.bus_to < (hvdcStep bus_types elm).length := by
          intro x hx
          rw [hvdcStep_length]
          exact hidx x (List.mem_cons.mpr (Or.inr hx))
        exact ih (hvdcStep bus_types elm) hidx2 e hm hact
  · intro j hj
    exact foldl_hvdcStep_untouched hvdc_lines bus_types j hj

/-- Example HVDC link between buses 0 and 1 for the C7 witness. -/
def exHvdc : HvdcDev :=
  { name := "H0", bus_from := 0, bus_to := 1, rate := 100, Pf := 10
  , Pt := -10, Vset_f := 1, Vset_t := 1, loss_factor := 0, Qmin_f := -5
  , Qmax_f := 5, Qmin_t := -5, Qmax_t := 5, active := true }

/-- Witness for C7: one active link between buses 0 (previously Slack)
and 1 (previously PQ) leaves both as PV and bus 2 untouched. -/
theorem C7_hvdc_forces_pv_witness :
    ((get_hvdc_data [exHvdc]
        [BusMode.Slack, BusMode.PQ, BusMode.PQ]).2.getD exHvdc.bus_from
        BusMode.PQ = BusMode.PV
      ∧ (get_hvdc_data [exHvdc]
        [BusMode.Slack, BusMode.PQ, BusMode.PQ]).2.getD exHvdc.bus_to
        BusMode.PQ = BusMode.PV)
    ∧ (get_hvdc_data [exHvdc]
        [BusMode.Slack, BusMode.PQ, BusMode.PQ]).2.getD 2 BusMode.PQ
      = ([BusMode.Slack, BusMode.PQ, BusMode.PQ] : List BusMode).getD 2
          BusMode.PQ := by
  have h := C7_hvdc_forces_pv [exHvdc] [BusMode.Slack, BusMode.PQ, BusMode.PQ]
    (fun e he => by rw [List.mem_singleton] at he; subst he; exact ⟨by decide, by decide⟩)
  exact ⟨h.1 exHvdc (List.mem_cons_self exHvdc []) (by decide),
         h.2 2 (fun e he => by
           rw [List.mem_singleton] at he
           subst he
           exact fun _ => ⟨by decide, by decide⟩)⟩

/-
  Heuristic proportional dispatch
  (src/GridCal/Engine/Simulations/OPF/simple_dispatch.py, OpfSimple.solve)
-/

/-- Numeric coercion of a numpy boolean in an arithmetic product. -/
def boolInd (b : Bool) : ℚ := if b then 1 else 0

/-- Inputs of OpfSimple.solve read from the compiled NumericalCircuit;
n_ctrl_gen and n_ld coincide with the generator and load array lengths. -/
structure NumericalCircuit where
  nbus : Nat
  nbr : Nat
  n_batt : Nat
  Sbase : ℚ
  generator_pmax : List ℚ
  generator_active : List Bool
  load_power : List Cpx
  load_active : List Bool
  br_rates : List ℚ
deriving DecidableEq, Repr

/-- Outputs kept by OpfSimple.solve for the result accessors. -/
structure OpfSimpleResult where
  theta : List ℚ
  Pg : List ℚ
  Pb : List ℚ
  Pl : List ℚ
  E : List ℚ
  load_shedding : List ℚ
  s_from : List ℚ
  s_to : List ℚ
  overloads : List ℚ
  rating : List ℚ
  nodal_restrictions : List ℚ
deriving DecidableEq, Repr

/-- Embedding of OpfSimple.solve (the method always returns True; only
the stored arrays matter).  Gshare divides by Pavail.sum with no guard;
numpy would emit non-finite floats when the sum is zero, while rational
division here follows the Lean zero convention, so every theorem about
the dispatch assumes the sum is nonzero. -/
def OpfSimple_solve (nc : NumericalCircuit) : OpfSimpleResult :=
  let Pg_max := nc.generator_pmax.map (fun x => x / nc.Sbase)
  let Pavail := List.zipWith (fun pm a => pm * boolInd a) Pg_max
    nc.generator_active
  let Gshare := Pavail.map (fun x => x / Pavail.sum)
  let Pl := List.zipWith (fun a p => boolInd a * p.re / nc.Sbase)
    nc.load_active nc.load_power
  let Pg := Gshare.map (fun x => Pl.sum * x)
  { theta := List.replicate nc.nbus 0
  , Pg := Pg
  , Pb := List.replicate nc.n_batt 0
  , Pl := Pl
  , E := List.replicate nc.n_batt 0
  , load_shedding := List.replicate nc.load_power.length 0
  , s_from := List.replicate nc.nbr 0
  , s_to := List.replicate nc.nbr 0
  , overloads := List.replicate nc.nbr 0
  , rating := nc.br_rates.map (fun x => x / nc.Sbase)
  , nodal_restrictions := List.replicate nc.nbus 0 }

/-- Indexing a zipWith below both lengths applies the function to the
two entries. -/
theorem getD_zipWith_lt {α β γ : Type} [Inhabited α] [Inhabited β]
    (f : α → β → γ) (xs : List α) (ys : List β) (i : Nat) (d : γ)
    (hx : i < xs.length) (hy : i < ys.length) :
    (List.zipWith f xs ys).getD i d
      = f (xs.getD i default) (ys.getD i default) := by
  induction xs generalizing ys i with
  | nil => simp at hx
  | cons x xs ih =>
    cases ys with
    | nil => simp at hy
    | cons y ys =>
      cases i with
      | zero => rfl
      | succ i0 =>
        simp only [List.zipWith_cons_cons, List.getD_cons_succ]
        exact ih ys i0 (by simpa using hx) (by simpa using hy)

/-- Dividing the mapped entries divides the sum. -/
theorem sum_map_div (l : List ℚ) (S : ℚ) :
    (l.map (fun x => x / S)).sum = l.sum / S := by
  induction l with
  | nil => simp
  | cons x xs ih => simp [ih, add_div]

/-- Scaling the mapped entries scales the sum. -/
theorem sum_map_mul_left (l : List ℚ) (c : ℚ) :
    (l.map (fun x => c * x)).sum = c * l.sum := by
  induction l with
  | nil => simp
  | cons x xs ih => simp [ih, mul_add]

/-- The available-capacity vector built from per-unit limits is the raw
capacity vector scaled by 1/Sbase. -/
theorem zipWith_avail_div (xs : List ℚ) (ys : List Bool) (S : ℚ) :
    List.zipWith (fun pm a => pm * boolInd a) (xs.map (fun x => x / S)) ys
      = (List.zipWith (fun pm a => pm * boolInd a) xs ys).map
          (fun x => x / S) := by
  induction xs generalizing ys with
  | nil => simp
  | cons x xs ih =>
    cases ys with
    | nil => simp
    | cons y ys =>
      simp only [List.map_cons, List.zipWith_cons_cons]
      rw [ih ys, div_mul_eq_mul_div]

/-- Cancelling a common nonzero scaling of numerator and denominator. -/
theorem div_scaled_cancel (a b S : ℚ) (hS : S ≠ 0) : a / S / (b / S) = a / b := by
  rw [div_div_div_comm, div_self hS, div_one]

/-- C3: OpfSimple.solve stores Pg_k = (total stored active load) *
(Pmax_k * active_k) / sum(Pmax * active) for every generator, and keeps
bus angles, branch flows, overloads, battery dispatch, battery energy,
load shedding and the shadow-price slots all at zero. -/
theorem C3_opf_simple_proportional_dispatch (nc : NumericalCircuit)
    (hS : nc.Sbase ≠ 0)
    (hlen : nc.generator_active.length = nc.generator_pmax.length)
    (hsum : (List.zipWith (fun pm a => pm * boolInd a) nc.generator_pmax
        nc.generator_active).sum ≠ 0) :
    (∀ k, k < nc.generator_pmax.length →
      (OpfSimple_solve nc).Pg.getD k 0
        = (OpfSimple_solve nc).Pl.sum *
            ((nc.generator_pmax.getD k 0 *
              boolInd (nc.generator_active.getD k false))
              / (List.zipWith (fun pm a => pm * boolInd a)
                  nc.generator_pmax nc.generator_active).sum))
    ∧ (OpfSimple_solve nc).theta = List.replicate nc.nbus 0
    ∧ (OpfSimple_solve nc).s_from = List.replicate nc.nbr 0
    ∧ (OpfSimple_solve nc).s_to = List.replicate nc.nbr 0
    ∧ (OpfSimple_solve nc).overloads = List.replicate nc.nbr 0
    ∧ (OpfSimple_solve nc).Pb = List.replicate nc.n_batt 0
    ∧ (OpfSimple_solve nc).E = List.replicate nc.n_batt 0
    ∧ (OpfSimple_solve nc).load_shedding
        = List.replicate nc.load_power.length 0
    ∧ (OpfSimple_solve nc).nodal_restrictions = List.replicate nc.nbus 0 := by
  refine ⟨?_, rfl, rfl, rfl, rfl, rfl, rfl, rfl, rfl⟩
  intro k hk
  have hzlen : k < (List.zipWith (fun pm a => pm * boolInd a)
      nc.generator_pmax nc.generator_active).length := by
    rw [List.length_zipWith]
    omega
  simp only [OpfSimple_solve]
  rw [zipWith_avail_div]
  rw [getD_map_lt _ _ k 0 (by simpa using hzlen),
      getD_map_lt _ _ k default (by simpa using hzlen),
      getD_map_lt _ _ k default hzlen,
      getD_zipWith_lt (fun pm a => pm * boolInd a) nc.generator_pmax
        nc.generator_active k default (by omega) (by omega),
      sum_map_div]
  rw [show (default : ℚ) = 0 from rfl, show (default : Bool) = false from rfl]
  congr 1
  exact div_scaled_cancel _ _ _ hS

/-- C9: the generator-share division of OpfSimple.solve has no guard;
whenever the total available capacity sum(Pmax * active) is nonzero (and
the base power is nonzero, as it physically is), the shares are well
defined and the stored dispatch sums exactly to the stored total active
load. -/
theorem C9_dispatch_sums_to_load (nc : NumericalCircuit)
    (hS : nc.Sbase ≠ 0)
    (hsum : (List.zipWith (fun pm a => pm * boolInd a) nc.generator_pmax
        nc.generator_active).sum ≠ 0) :
    (OpfSimple_solve nc).Pg.sum = (OpfSimple_solve nc).Pl.sum := by
  simp only [OpfSimple_solve]
  rw [zipWith_avail_div, sum_map_mul_left, sum_map_div, sum_map_div,
      div_self (div_ne_zero hsum hS), mul_one]

/-- Dispatch example of the specification: capacities [100, 50], both
active, one active load of 90, unit base power. -/
def exDispatchNc : NumericalCircuit :=
  { nbus := 2, nbr := 1, n_batt := 0, Sbase := 1
  , generator_pmax := [100, 50], generator_active := [true, true]
  , load_power := [⟨90, 0⟩], load_active := [true], br_rates := [100] }

/-- Witness for C3 at the specification example: Pg = [60, 30], angles
and shadow prices all zero. -/
theorem C3_opf_simple_proportional_dispatch_witness :
    (OpfSimple_solve exDispatchNc).Pg.getD 0 0 = 60
    ∧ (OpfSimple_solve exDispatchNc).Pg.getD 1 0 = 30
    ∧ (OpfSimple_solve exDispatchNc).theta = List.replicate 2 0
    ∧ (OpfSimple_solve exDispatchNc).nodal_restrictions
        = List.replicate 2 0 := by
  have h := C3_opf_simple_proportional_dispatch exDispatchNc
    (by norm_num [exDispatchNc]) (by decide)
    (by norm_num [exDispatchNc, boolInd])
  refine ⟨?_, ?_, h.2.1, h.2.2.2.2.2.2.2.2⟩
  · exact (h.1 0 (by decide)).trans
      (by norm_num [exDispatchNc, OpfSimple_solve, boolInd])
  · exact (h.1 1 (by decide)).trans
      (by norm_num [exDispatchNc, OpfSimple_solve, boolInd])

/-- Witness for C9 at the same example: 60 + 30 equals the stored load
sum 90. -/
theorem C9_dispatch_sums_to_load_witness :
    (OpfSimple_solve exDispatchNc).Pg.sum
      = (OpfSimple_solve exDispatchNc).Pl.sum :=
  C9_dispatch_sums_to_load exDispatchNc (by norm_num [exDispatchNc])
    (by norm_num [exDispatchNc, boolInd])

/-
  DC nodal power balance of the LP formulation
  (simple_dispatch.py, add_dc_nodal_power_balance).

  LP expressions are embedded symbolically as rational-weighted sums of
  atoms (LpVar occurrences); the vendored pulp helpers, which are not
  part of the compiled sources, are modelled from the spec as noted on
  each definition.
-/

/-- Symbolic linear expression: a list of coefficient-atom pairs. -/
abbrev LinExpr := List (ℚ × Nat)

/-- Value of a linear expression under an assignment of the atoms. -/
def evalExpr (σ : Nat → ℚ) (e : LinExpr) : ℚ :=
  (e.map (fun p => p.1 * σ p.2)).sum

/-- Scaling of a linear expression by a rational coefficient. -/
def scaleExpr (c : ℚ) (e : LinExpr) : LinExpr :=
  e.map (fun p => (c * p.1, p.2))

/-- Modelled from the spec: lpDot of one dense matrix row with a vector
of LP expressions (the source lpDot lives in the vendored pulp module),
accumulating coefficient-scaled terms in column order. -/
def lpDotRow (row : List ℚ) (xs : List LinExpr) : LinExpr :=
  (List.zipWith scaleExpr row xs).flatten

/-- One emitted LP restriction: lhs op rhs, under a family name. -/
structure Restriction where
  lhs : LinExpr
  rhs : LinExpr
  name : String
  op : String
deriving DecidableEq, Repr

/-- Modelled from the spec: the vendored pulp helper lpAddRestrictions2
appends one restriction per lhs/rhs row to the problem and returns the
appended restrictions (the caller stores them for shadow-price
extraction). -/
def lpAddRestrictions2 (problem : List Restriction)
    (lhs rhs : List LinExpr) (name : String) (op : String) :
    List Restriction × List Restriction :=
  let rs := List.zipWith (fun l r => Restriction.mk l r name op) lhs rhs
  (problem ++ rs, rs)

/-- One compiled island as produced by numerical_circuit.compute():
dense original-bus indices, slack (ref) and non-slack (pqpv) positions
within the island, and the island susceptance matrix (the imaginary part
of its admittance matrix, dense here). -/
structure CalculationInput where
  original_bus_idx : List Nat
  ref : List Nat
  pqpv : List Nat
  Bmat : List (List ℚ)
deriving DecidableEq, Inhabited, Repr

/-- Fancy-indexing read xs[idx] of a vector of LP expressions. -/
def exprSelect (xs : List LinExpr) (idx : List Nat) : List LinExpr :=
  idx.map (fun j => xs.getD j [])

/-- Fancy-indexing write arr[idx] = rs into the per-bus restriction
slots. -/
def scatterSome (arr : List (Option Restriction)) (idx : List Nat)
    (rs : List Restriction) : List (Option Restriction) :=
  (List.zipWith (fun i r => (i, r)) idx rs).foldl
    (fun a p => a.set p.1 (some p.2)) arr

/-- Island loop of add_dc_nodal_power_balance, threading the LP problem
and the per-bus restriction slots; i is the running island index used in
the restriction family names.  An island with an empty ref list is
passed over without touching either accumulator. -/
def balanceAux (i : Nat) (islands : List CalculationInput)
    (theta P : List LinExpr) (problem : List Restriction)
    (nodal : List (Option Restriction)) :
    List Restriction × List (Option Restriction) :=
  match islands with
  | [] => (problem, nodal)
  | ci :: rest =>
      if ci.ref.length > 0 then
        let orig := ci.original_bus_idx
        let P_island := exprSelect P orig
        let theta_island := exprSelect theta orig
        let pqpv := ci.pqpv
        let vd := ci.ref
        let lhs1 := pqpv.map (fun r =>
          lpDotRow (pqpv.map (fun c => (ci.Bmat.getD r []).getD c 0))
            (exprSelect theta_island pqpv))
        let p1 := lpAddRestrictions2 problem lhs1 (exprSelect P_island pqpv)
          ("Nodal_power_balance_pqpv_is" ++ toString i) "="
        let nodal1 := scatterSome nodal (pqpv.map (fun r => orig.getD r 0)) p1.2
        let lhs2 := vd.map (fun r => lpDotRow (ci.Bmat.getD r []) theta_island)
        let p2 := lpAddRestrictions2 p1.1 lhs2 (exprSelect P_island vd)
          ("Nodal_power_balance_vd_is" ++ toString i) "="
        let nodal2 := scatterSome nodal1 (vd.map (fun r => orig.getD r 0)) p2.2
        let p3 := lpAddRestrictions2 p2.1 (exprSelect theta_island vd)
          (vd.map (fun _ => []))
          ("Theta_vd_zero_is" ++ toString i) "="
        balanceAux (i + 1) rest theta P p3.1 nodal2
      else
        balanceAux (i + 1) rest theta P problem nodal

/-- Embedding of add_dc_nodal_power_balance: the restriction slot array
starts unset for every bus (np.empty of objects) and the islands are
visited in order. -/
def add_dc_nodal_power_balance (calculation_inputs : List CalculationInput)
    (nbus : Nat) (problem : List Restriction) (theta P : List LinExpr) :
    List Restriction × List (Option Restriction) :=
  balanceAux 0 calculation_inputs theta P problem
    (List.replicate nbus none)

/-- Reading below the length lands on a list member. -/
theorem getD_mem_of_lt {α : Type} (l : List α) (m : Nat) (d : α)
    (h : m < l.length) : l.getD m d ∈ l := by
  rw [List.getD_eq_getElem?_getD, List.getElem?_eq_getElem h]
  exact List.getElem_mem h

/-- Every entry of an all-unset slot array reads none. -/
theorem getD_replicate_none (n j : Nat) :
    (List.replicate n (none : Option Restriction)).getD j none = none := by
  rw [List.getD_eq_getElem?_getD, List.getElem?_replicate]
  split <;> rfl

theorem scatterSome_length (arr : List (Option Restriction))
    (idx : List Nat) (rs : List Restriction) :
    (scatterSome arr idx rs).length = arr.length := by
  unfold scatterSome
  generalize List.zipWith (fun i r => (i, r)) idx rs = ps
  induction ps generalizing arr with
  | nil => rfl
  | cons p rest ih => rw [List.foldl_cons, ih, List.length_set]

/-- The first components of the index-value zip come from the index
list. -/
theorem zip_fst_mem (idx : List Nat) (rs : List Restriction)
    (p : Nat × Restriction)
    (hp : p ∈ List.zipWith (fun i r => (i, r)) idx rs) : p.1 ∈ idx := by
  induction idx generalizing rs with
  | nil => simp at hp
  | cons i idx ih =>
    cases rs with
    | nil => simp at hp
    | cons r rs =>
      rw [List.zipWith_cons_cons, List.mem_cons] at hp
      rcases hp with rfl | hp
      · exact List.mem_cons_self i idx
      · exact List.mem_cons.mpr (Or.inr (ih rs hp))

/-- A slot whose index is never written keeps its value across a
scatter. -/
theorem scatterSome_getD_not_mem (arr : List (Option Restriction))
    (idx : List Nat) (rs : List Restriction) (j : Nat) (hj : j ∉ idx) :
    (scatterSome arr idx rs).getD j none = arr.getD j none := by
  unfold scatterSome
  have hps : ∀ p ∈ List.zipWith (fun i r => (i, r)) idx rs, p.1 ≠ j :=
    fun p hp he => hj (he ▸ zip_fst_mem idx rs p hp)
  generalize hgen : List.zipWith (fun i r => (i, r)) idx rs = ps at hps
  clear hgen
  induction ps generalizing arr with
  | nil => rfl
  | cons p rest ih =>
    rw [List.foldl_cons,
        ih (arr.set p.1 (some p.2)) (fun q hq => hps q (List.mem_cons.mpr (Or.inr hq))),
        getD_set_ne _ _ _ _ _ (hps p (List.mem_cons_self p rest))]

theorem balanceAux_nodal_length (islands : List CalculationInput)
    (theta P : List LinExpr) (i : Nat) (prob : List Restriction)
    (nodal : List (Option Restriction)) :
    (balanceAux i islands theta P prob nodal).2.length = nodal.length := by
  induction islands generalizing i prob nodal with
  | nil => rfl
  | cons ci rest ih =>
    rw [balanceAux]
    split
    · rw [ih, scatterSome_length, scatterSome_length]
    · exact ih (i + 1) prob nodal

/-- Restrictions already in the problem survive the island loop. -/
theorem balanceAux_problem_mono (islands : List CalculationInput)
    (theta P : List LinExpr) (i : Nat) (prob : List Restriction)
    (nodal : List (Option Restriction)) (r : Restriction) (hr : r ∈ prob) :
    r ∈ (balanceAux i islands theta P prob nodal).1 := by
  induction islands generalizing i prob nodal with
  | nil => exact hr
  | cons ci rest ih =>
    rw [balanceAux]
    split
    · exact ih (i + 1) _ _
        (List.mem_append_left _ (List.mem_append_left _ (List.mem_append_left _ hr)))
    · exact ih (i + 1) prob nodal hr

/-- A bus index that no processed island with a reference bus contains
keeps its restriction slot untouched across the island loop. -/
theorem balanceAux_nodal_untouched (islands : List CalculationInput)
    (theta P : List LinExpr) (i : Nat) (prob : List Restriction)
    (nodal : List (Option Restriction)) (j : Nat)
    (h : ∀ isl ∈ islands, 0 < isl.ref.length →
      j ∉ isl.original_bus_idx
      ∧ (∀ r ∈ isl.pqpv, r < isl.original_bus_idx.length)
      ∧ (∀ r ∈ isl.ref, r < isl.original_bus_idx.length)) :
    (balanceAux i islands theta P prob nodal).2.getD j none
      = nodal.getD j none := by
  induction islands generalizing i prob nodal with
  | nil => rfl
  | cons ci rest ih =>
    rw [balanceAux]
    split
    · next href =>
      obtain ⟨hnot, hpq, hrf⟩ := h ci (List.mem_cons_self ci rest) href
      have hj1 : j ∉ ci.pqpv.map (fun r => ci.original_bus_idx.getD r 0) := by
        intro hmem
        rcases List.mem_map.mp hmem with ⟨r, hr, hrj⟩
        exact hnot (hrj ▸ getD_mem_of_lt _ r 0 (hpq r hr))
      have hj2 : j ∉ ci.ref.map (fun r => ci.original_bus_idx.getD r 0) := by
        intro hmem
        rcases List.mem_map.mp hmem with ⟨r, hr, hrj⟩
        exact hnot (hrj ▸ getD_mem_of_lt _ r 0 (hrf r hr))
      rw [ih (i + 1) _ _ (fun isl hisl => h isl (List.mem_cons.mpr (Or.inr hisl))),
          scatterSome_getD_not_mem _ _ _ j hj2,
          scatterSome_getD_not_mem _ _ _ j hj1]
    · exact ih (i + 1) prob nodal (fun isl hisl => h isl (List.mem_cons.mpr (Or.inr hisl)))

/-- Reading a fancy-indexed expression vector below the index length. -/
theorem exprSelect_getD (xs : List LinExpr) (idx : List Nat) (m : Nat)
    (hm : m < idx.length) :
    (exprSelect xs idx).getD m [] = xs.getD (idx.getD m 0) [] := by
  unfold exprSelect
  rw [getD_map_lt _ _ m [] hm]
  rfl

/-- Two nested fancy-indexed reads collapse to one composed read when
the inner positions are in range. -/
theorem exprSelect_exprSelect (xs : List LinExpr) (orig : List Nat)
    (pq : List Nat) (h : ∀ c ∈ pq, c < orig.length) :
    exprSelect (exprSelect xs orig) pq
      = pq.map (fun c => xs.getD (orig.getD c 0) []) := by
  unfold exprSelect
  refine List.map_congr_left (fun c hc => ?_)
  rw [getD_map_lt _ _ c [] (h c hc)]
  rfl

/-- The m-th restriction appended by lpAddRestrictions2 pairs the m-th
lhs with the m-th rhs under the family name. -/
theorem mem_zipWith_mk (lhs rhs : List LinExpr) (nm op : String) (m : Nat)
    (h1 : m < lhs.length) (h2 : m < rhs.length) :
    Restriction.mk (lhs.getD m []) (rhs.getD m []) nm op
      ∈ List.zipWith (fun l r => Restriction.mk l r nm op) lhs rhs := by
  have heq := getD_zipWith_lt (fun l r => Restriction.mk l r nm op) lhs rhs
    m (Restriction.mk [] [] "" "") h1 h2
  have hlen : m < (List.zipWith (fun l r => Restriction.mk l r nm op)
      lhs rhs).length := by
    rw [List.length_zipWith]
    omega
  have hmem := getD_mem_of_lt _ m (Restriction.mk [] [] "" "") hlen
  rw [heq] at hmem
  exact hmem

/-- Non-slack balance block emitted for one island: pqpv-restricted rows
and columns of the island susceptance against the island pqpv angles,
equal to the pqpv injections. -/
def islandRs1 (ci : CalculationInput) (theta P : List LinExpr) (i : Nat) :
    List Restriction :=
  List.zipWith
    (fun l r => Restriction.mk l r
      ("Nodal_power_balance_pqpv_is" ++ toString i) "=")
    (ci.pqpv.map (fun r =>
      lpDotRow (ci.pqpv.map (fun c => (ci.Bmat.getD r []).getD c 0))
        (exprSelect (exprSelect theta ci.original_bus_idx) ci.pqpv)))
    (exprSelect (exprSelect P ci.original_bus_idx) ci.pqpv)

/-- Slack balance block emitted for one island: full island susceptance
rows against all island angles, equal to the slack injections. -/
def islandRs2 (ci : CalculationInput) (theta P : List LinExpr) (i : Nat) :
    List Restriction :=
  List.zipWith
    (fun l r => Restriction.mk l r
      ("Nodal_power_balance_vd_is" ++ toString i) "=")
    (ci.ref.map (fun r =>
      lpDotRow (ci.Bmat.getD r []) (exprSelect theta ci.original_bus_idx)))
    (exprSelect (exprSelect P ci.original_bus_idx) ci.ref)

/-- Zero-angle block emitted for one island: each slack angle equal to
the constant zero expression. -/
def islandRs3 (ci : CalculationInput) (theta : List LinExpr) (i : Nat) :
    List Restriction :=
  List.zipWith
    (fun l r => Restriction.mk l r ("Theta_vd_zero_is" ++ toString i) "=")
    (exprSelect (exprSelect theta ci.original_bus_idx) ci.ref)
    (ci.ref.map (fun _ => []))

theorem balanceAux_cons_pos (i : Nat) (ci : CalculationInput)
    (rest : List CalculationInput) (theta P : List LinExpr)
    (prob : List Restriction) (nodal : List (Option Restriction))
    (h : 0 < ci.ref.length) :
    balanceAux i (ci :: rest) theta P prob nodal
      = balanceAux (i + 1) rest theta P
          (((prob ++ islandRs1 ci theta P i) ++ islandRs2 ci theta P i)
            ++ islandRs3 ci theta i)
          (scatterSome
            (scatterSome nodal
              (ci.pqpv.map (fun r => ci.original_bus_idx.getD r 0))
              (islandRs1 ci theta P i))
            (ci.ref.map (fun r => ci.original_bus_idx.getD r 0))
            (islandRs2 ci theta P i)) := by
  rw [balanceAux, if_pos h]
  rfl

theorem balanceAux_cons_neg (i : Nat) (ci : CalculationInput)
    (rest : List CalculationInput) (theta P : List LinExpr)
    (prob : List Restriction) (nodal : List (Option Restriction))
    (h : ¬ 0 < ci.ref.length) :
    balanceAux i (ci :: rest) theta P prob nodal
      = balanceAux (i + 1) rest theta P prob nodal := by
  rw [balanceAux, if_neg h]

/-- Specification shape of one non-slack balance restriction: row
pqpv[m] of the island susceptance restricted to the pqpv columns,
against the angles of the island pqpv buses, equal to the injection of
the row bus. -/
def pqpvBalanceRestriction (ci : CalculationInput) (theta P : List LinExpr)
    (i m : Nat) : Restriction :=
  Restriction.mk
    (lpDotRow
      (ci.pqpv.map (fun c =>
        (ci.Bmat.getD (ci.pqpv.getD m 0) []).getD c 0))
      (ci.pqpv.map (fun c =>
        theta.getD (ci.original_bus_idx.getD c 0) [])))
    (P.getD (ci.original_bus_idx.getD (ci.pqpv.getD m 0) 0) [])
    ("Nodal_power_balance_pqpv_is" ++ toString i) "="

/-- Specification shape of one slack balance restriction: the full
island susceptance row ref[m] against all island angles, equal to the
injection of the slack bus. -/
def vdBalanceRestriction (ci : CalculationInput) (theta P : List LinExpr)
    (i m : Nat) : Restriction :=
  Restriction.mk
    (lpDotRow (ci.Bmat.getD (ci.ref.getD m 0) [])
      (ci.original_bus_idx.map (fun j => theta.getD j [])))
    (P.getD (ci.original_bus_idx.getD (ci.ref.getD m 0) 0) [])
    ("Nodal_power_balance_vd_is" ++ toString i) "="

/-- Specification shape of one zero-slack-angle restriction: the angle
of slack bus ref[m] equal to the constant zero expression. -/
def thetaZeroRestriction (ci : CalculationInput) (theta : List LinExpr)
    (i m : Nat) : Restriction :=
  Restriction.mk
    (theta.getD (ci.original_bus_idx.getD (ci.ref.getD m 0) 0) [])
    [] ("Theta_vd_zero_is" ++ toString i) "="

theorem pqpvBalanceRestriction_mem (ci : CalculationInput)
    (theta P : List LinExpr) (i m : Nat) (hm : m < ci.pqpv.length)
    (hpq : ∀ r ∈ ci.pqpv, r < ci.original_bus_idx.length) :
    pqpvBalanceRestriction ci theta P i m ∈ islandRs1 ci theta P i := by
  have hlhs : (ci.pqpv.map (fun r =>
      lpDotRow (ci.pqpv.map (fun c => (ci.Bmat.getD r []).getD c 0))
        (exprSelect (exprSelect theta ci.original_bus_idx) ci.pqpv))).getD m []
      = lpDotRow
          (ci.pqpv.map (fun c =>
            (ci.Bmat.getD (ci.pqpv.getD m 0) []).getD c 0))
          (ci.pqpv.map (fun c =>
            theta.getD (ci.original_bus_idx.getD c 0) [])) := by
    simp only [exprSelect_exprSelect theta ci.original_bus_idx ci.pqpv hpq]
    rw [getD_map_lt _ _ m [] hm]
    rfl
  have hrhs : (exprSelect (exprSelect P ci.original_bus_idx) ci.pqpv).getD m []
      = P.getD (ci.original_bus_idx.getD (ci.pqpv.getD m 0) 0) [] := by
    rw [exprSelect_getD _ _ m hm,
        exprSelect_getD _ _ _ (hpq _ (getD_mem_of_lt _ m 0 hm))]
  have hmem := mem_zipWith_mk
    (ci.pqpv.map (fun r =>
      lpDotRow (ci.pqpv.map (fun c => (ci.Bmat.getD r []).getD c 0))
        (exprSelect (exprSelect theta ci.original_bus_idx) ci.pqpv)))
    (exprSelect (exprSelect P ci.original_bus_idx) ci.pqpv)
    ("Nodal_power_balance_pqpv_is" ++ toString i) "=" m
    (by simpa using hm) (by simp [exprSelect, hm])
  rw [hlhs, hrhs] at hmem
  exact hmem

theorem vdBalanceRestriction_mem (ci : CalculationInput)
    (theta P : List LinExpr) (i m : Nat) (hm : m < ci.ref.length)
    (hrf : ∀ r ∈ ci.ref, r < ci.original_bus_idx.length) :
    vdBalanceRestriction ci theta P i m ∈ islandRs2 ci theta P i := by
  have hlhs : (ci.ref.map (fun r =>
      lpDotRow (ci.Bmat.getD r []) (exprSelect theta ci.original_bus_idx))).getD m []
      = lpDotRow (ci.Bmat.getD (ci.ref.getD m 0) [])
          (exprSelect theta ci.original_bus_idx) := by
    rw [getD_map_lt _ _ m [] hm]
    rfl
  have hrhs : (exprSelect (exprSelect P ci.original_bus_idx) ci.ref).getD m []
      = P.getD (ci.original_bus_idx.getD (ci.ref.getD m 0) 0) [] := by
    rw [exprSelect_getD _ _ m hm,
        exprSelect_getD _ _ _ (hrf _ (getD_mem_of_lt _ m 0 hm))]
  have hmem := mem_zipWith_mk
    (ci.ref.map (fun r =>
      lpDotRow (ci.Bmat.getD r []) (exprSelect theta ci.original_bus_idx)))
    (exprSelect (exprSelect P ci.original_bus_idx) ci.ref)
    ("Nodal_power_balance_vd_is" ++ toString i) "=" m
    (by simpa using hm) (by simp [exprSelect, hm])
  rw [hlhs, hrhs] at hmem
  exact hmem

theorem thetaZeroRestriction_mem (ci : CalculationInput)
    (theta : List LinExpr) (i m : Nat) (hm : m < ci.ref.length)
    (hrf : ∀ r ∈ ci.ref, r < ci.original_bus_idx.length) :
    thetaZeroRestriction ci theta i m ∈ islandRs3 ci theta i := by
  have hlhs : (exprSelect (exprSelect theta ci.original_bus_idx) ci.ref).getD m []
      = theta.getD (ci.original_bus_idx.getD (ci.ref.getD m 0) 0) [] := by
    rw [exprSelect_getD _ _ m hm,
        exprSelect_getD _ _ _ (hrf _ (getD_mem_of_lt _ m 0 hm))]
  have hrhs : ((ci.ref.map (fun _ => ([] : LinExpr)))).getD m []
      = ([] : LinExpr) := by
    rw [getD_map_lt _ _ m [] hm]
  have hmem := mem_zipWith_mk
    (exprSelect (exprSelect theta ci.original_bus_idx) ci.ref)
    (ci.ref.map (fun _ => []))
    ("Theta_vd_zero_is" ++ toString i) "=" m
    (by simp [exprSelect, hm]) (by simpa using hm)
  rw [hlhs, hrhs] at hmem
  exact hmem

/-- Reading below the length agrees with positional indexing. -/
theorem getD_eq_getElem {α : Type} (l : List α) (k : Nat) (d : α)
    (hk : k < l.length) : l.getD k d = l[k] := by
  rw [List.getD_eq_getElem?_getD, List.getElem?_eq_getElem hk]
  rfl

theorem balanceAux_problem_length (islands : List CalculationInput)
    (theta P : List LinExpr) (i : Nat) (prob : List Restriction)
    (nodal : List (Option Restriction)) :
    (balanceAux i islands theta P prob nodal).1.length
      = prob.length
        + ((islands.filter (fun c => decide (0 < c.ref.length))).map
            (fun c => c.pqpv.length + 2 * c.ref.length)).sum := by
  induction islands generalizing i prob nodal with
  | nil => simp [balanceAux]
  | cons ci rest ih =>
    by_cases h : 0 < ci.ref.length
    · rw [balanceAux_cons_pos i ci rest theta P prob nodal h, ih]
      have h1 : (islandRs1 ci theta P i).length = ci.pqpv.length := by
        simp [islandRs1, exprSelect]
      have h2 : (islandRs2 ci theta P i).length = ci.ref.length := by
        simp [islandRs2, exprSelect]
      have h3 : (islandRs3 ci theta i).length = ci.ref.length := by
        simp [islandRs3, exprSelect]
      have hT : decide (0 < ci.ref.length) = true := by simpa using h
      simp only [List.length_append, h1, h2, h3, List.filter_cons, hT,
        eq_self_iff_true, if_true, List.map_cons, List.sum_cons]
      omega
    · rw [balanceAux_cons_neg i ci rest theta P prob nodal h, ih]
      simp only [List.filter_cons]
      rw [if_neg (by simpa using h)]

/-- Every island with a reference bus has all three restriction families
of its position in the final problem list. -/
theorem balanceAux_emits (islands : List CalculationInput)
    (theta P : List LinExpr) (i : Nat) (prob : List Restriction)
    (nodal : List (Option Restriction)) (k : Nat) (hk : k < islands.length)
    (hpq : ∀ r ∈ (islands.getD k default).pqpv,
      r < (islands.getD k default).original_bus_idx.length)
    (hrf : ∀ r ∈ (islands.getD k default).ref,
      r < (islands.getD k default).original_bus_idx.length)
    (href : 0 < (islands.getD k default).ref.length) :
    (∀ m, m < (islands.getD k default).pqpv.length →
      pqpvBalanceRestriction (islands.getD k default) theta P (i + k) m
        ∈ (balanceAux i islands theta P prob nodal).1)
    ∧ (∀ m, m < (islands.getD k default).ref.length →
      vdBalanceRestriction (islands.getD k default) theta P (i + k) m
        ∈ (balanceAux i islands theta P prob nodal).1)
    ∧ (∀ m, m < (islands.getD k default).ref.length →
      thetaZeroRestriction (islands.getD k default) theta (i + k) m
        ∈ (balanceAux i islands theta P prob nodal).1) := by
  induction islands generalizing i prob nodal k with
  | nil => simp at hk
  | cons ci rest ih =>
    cases k with
    | zero =>
      simp only [List.getD_cons_zero] at hpq hrf href ⊢
      rw [balanceAux_cons_pos i ci rest theta P prob nodal href]
      refine ⟨?_, ?_, ?_⟩
      · intro m hm
        exact balanceAux_problem_mono rest theta P (i + 1) _ _ _
          (List.mem_append_left _ (List.mem_append_left _
            (List.mem_append_right _
              (pqpvBalanceRestriction_mem ci theta P i m hm hpq))))
      · intro m hm
        exact balanceAux_problem_mono rest theta P (i + 1) _ _ _
          (List.mem_append_left _ (List.mem_append_right _
            (vdBalanceRestriction_mem ci theta P i m hm hrf)))
      · intro m hm
        exact balanceAux_problem_mono rest theta P (i + 1) _ _ _
          (List.mem_append_right _
            (thetaZeroRestriction_mem ci theta i m hm hrf))
    | succ k0 =>
      have hk0 : k0 < rest.length := by simpa using hk
      simp only [List.getD_cons_succ] at hpq hrf href ⊢
      have harith : i + (k0 + 1) = (i + 1) + k0 := by omega
      simp only [harith]
      by_cases h : 0 < ci.ref.length
      · rw [balanceAux_cons_pos i ci rest theta P prob nodal h]
        exact ih (i + 1) _ _ k0 hk0 hpq hrf href
      · rw [balanceAux_cons_neg i ci rest theta P prob nodal h]
        exact ih (i + 1) prob nodal k0 hk0 hpq hrf href

/-- C8: islands without a reference bus are skipped silently by
add_dc_nodal_power_balance - they contribute no restriction to the
problem (the emitted count sums only over islands with a reference) and
their positions in the returned per-bus restriction array stay unset -
while every island with a reference receives the pqpv-restricted
non-slack balance rows, the full-row slack balance rows and the
zero-slack-angle equalities, under its own island index. -/
theorem C8_island_balance_skip (islands : List CalculationInput)
    (nbus : Nat) (problem : List Restriction) (theta P : List LinExpr)
    (hdisj : List.Pairwise (fun a b => ∀ j,
      ¬(j ∈ a.original_bus_idx ∧ j ∈ b.original_bus_idx)) islands)
    (hpq : ∀ isl ∈ islands, ∀ r ∈ isl.pqpv,
      r < isl.original_bus_idx.length)
    (hrf : ∀ isl ∈ islands, ∀ r ∈ isl.ref,
      r < isl.original_bus_idx.length) :
    (∀ k, k < islands.length → (islands.getD k default).ref = [] →
      ∀ j ∈ (islands.getD k default).original_bus_idx,
        (add_dc_nodal_power_balance islands nbus problem theta
          P).2.getD j none = none)
    ∧ ((add_dc_nodal_power_balance islands nbus problem theta P).1.length
        = problem.length
          + ((islands.filter (fun c => decide (0 < c.ref.length))).map
              (fun c => c.pqpv.length + 2 * c.ref.length)).sum)
    ∧ (∀ k, k < islands.length →
        0 < (islands.getD k default).ref.length →
        (∀ m, m < (islands.getD k default).pqpv.length →
          pqpvBalanceRestriction (islands.getD k default) theta P k m
            ∈ (add_dc_nodal_power_balance islands nbus problem theta P).1)
        ∧ (∀ m, m < (islands.getD k default).ref.length →
          vdBalanceRestriction (islands.getD k default) theta P k m
            ∈ (add_dc_nodal_power_balance islands nbus problem theta P).1)
        ∧ (∀ m, m < (islands.getD k default).ref.length →
          thetaZeroRestriction (islands.getD k default) theta k m
            ∈ (add_dc_nodal_power_balance islands nbus problem theta
              P).1)) := by
  refine ⟨?_, ?_, ?_⟩
  · intro k hk hrefk j hj
    unfold add_dc_nodal_power_balance
    rw [balanceAux_nodal_untouched islands theta P 0 problem _ j ?_]
    · exact getD_replicate_none nbus j
    · intro isl hisl hislref
      refine ⟨?_, hpq isl hisl, hrf isl hisl⟩
      obtain ⟨l, hl, hEq⟩ := List.mem_iff_getElem.mp hisl
      have hkD : islands.getD k default = islands[k] :=
        getD_eq_getElem islands k default hk
      have hlk : l ≠ k := by
        intro he
        subst he
        rw [← hEq, ← hkD, hrefk] at hislref
        simp at hislref
      intro hjin
      rcases Nat.lt_or_ge l k with hlt | hge
      · have hR := List.pairwise_iff_getElem.mp hdisj l k hl hk hlt
        exact hR j ⟨hEq ▸ hjin, hkD ▸ hj⟩
      · have hkl : k < l := by omega
        have hR := List.pairwise_iff_getElem.mp hdisj k l hk hl hkl
        exact hR j ⟨hkD ▸ hj, hEq ▸ hjin⟩
  · exact balanceAux_problem_length islands theta P 0 problem _
  · intro k hk hrefk
    have hmem : islands.getD k default ∈ islands := by
      rw [getD_eq_getElem islands k default hk]
      exact List.getElem_mem hk
    have h := balanceAux_emits islands theta P 0 problem
      (List.replicate nbus none) k hk (hpq _ hmem) (hrf _ hmem) hrefk
    simp only [Nat.zero_add] at h
    exact h

/-- Two-bus island with no reference bus, for the C8 witness. -/
def exIslandNoRef : CalculationInput :=
  { original_bus_idx := [0, 1], ref := [], pqpv := [0, 1]
  , Bmat := [[1, -1], [-1, 1]] }

/-- Two-bus island with one reference bus, for the C8 witness. -/
def exIslandRef : CalculationInput :=
  { original_bus_idx := [2, 3], ref := [0], pqpv := [1]
  , Bmat := [[2, -2], [-2, 2]] }

/-- One angle atom per bus for the C8 witness. -/
def exThetaVars : List LinExpr := [[(1, 0)], [(1, 1)], [(1, 2)], [(1, 3)]]

/-- One injection atom per bus for the C8 witness. -/
def exPVars : List LinExpr := [[(1, 10)], [(1, 11)], [(1, 12)], [(1, 13)]]

/-- Witness for C8: with a reference-free island over buses 0,1 and a
slack island over buses 2,3, bus 0 keeps an unset restriction slot, the
problem holds exactly the three restrictions of the slack island, and
the slack island receives its pqpv balance row. -/
theorem C8_island_balance_skip_witness :
    (add_dc_nodal_power_balance [exIslandNoRef, exIslandRef] 4 []
        exThetaVars exPVars).2.getD 0 none = none
    ∧ ((add_dc_nodal_power_balance [exIslandNoRef, exIslandRef] 4 []
        exThetaVars exPVars).1.length
        = ([] : List Restriction).length
          + ((([exIslandNoRef, exIslandRef].filter
              (fun c => decide (0 < c.ref.length))).map
              (fun c => c.pqpv.length + 2 * c.ref.length)).sum))
    ∧ pqpvBalanceRestriction
        (([exIslandNoRef, exIslandRef] : List CalculationInput).getD 1
          default) exThetaVars exPVars 1 0
        ∈ (add_dc_nodal_power_balance [exIslandNoRef, exIslandRef] 4 []
            exThetaVars exPVars).1 := by
  have hdisj : List.Pairwise (fun a b => ∀ j,
      ¬(j ∈ a.original_bus_idx ∧ j ∈ b.original_bus_idx))
      [exIslandNoRef, exIslandRef] := by
    refine List.Pairwise.cons ?_ (List.Pairwise.cons ?_ List.Pairwise.nil)
    · intro b hb j hjj
      rw [List.mem_singleton] at hb
      subst hb
      obtain ⟨hj1, hj2⟩ := hjj
      simp [exIslandNoRef, exIslandRef] at hj1 hj2
      omega
    · intro b hb
      simp at hb
  have h := C8_island_balance_skip [exIslandNoRef, exIslandRef] 4 []
    exThetaVars exPVars hdisj (by decide) (by decide)
  exact ⟨h.1 0 (by decide) (by decide) 0 (by decide), h.2.1,
         (h.2.2 1 (by decide) (by decide)).1 0 (by decide)⟩
